import Mathlib

/-!
Verification development for the mini-game-hub server-authoritative
simulation core (`server/src/index.js`, `server/src/game/content.js`,
`server/src/data/store.js`, `client/src/game/zones.js`).

Shallow embedding conventions:
* JS numbers used for positions, velocities etc. are modelled as `ℚ`
  (exact rationals); where the source takes a square root (`Math.hypot`)
  we model over `ℝ`.
* JS timestamps (`Date.now()` milliseconds) are modelled as `ℤ`.
* JS `Set` objects that the source only mutates via guarded `add` are
  modelled as duplicate-free `List`s with an insert-if-absent helper.
* `io.to(...).emit(...)` and `emitToUser(...)` calls are modelled as
  entries appended to an explicit event trace (one trace entry per
  emit/emitToUser call site execution).
-/

namespace MiniGameHub

/-- `clamp(value, min, max)` from `server/src/index.js`:
    `Math.max(min, Math.min(max, value))`. -/
def clamp (value lo hi : ℚ) : ℚ := max lo (min hi value)

/-- `clampMin(value, min)` from `server/src/data/store.js`:
    `value < min ? min : value`. -/
def clampMin (value lo : ℤ) : ℤ := if value < lo then lo else value

/-- Insert-if-absent on a list, modelling `Set.add` guarded by `Set.has`. -/
def addUnique (xs : List String) (x : String) : List String :=
  if x ∈ xs then xs else x :: xs

/-! ## Constants from `server/src/game/content.js` -/

/-- `WORLD = { w: 2800, h: 1800 }`. -/
def WORLD : ℚ × ℚ := (2800, 1800)

/-- `PLAYER_PADDING = 40`. -/
def PLAYER_PADDING : ℚ := 40

/-- `PLAYER_SPEED = 185`. -/
def PLAYER_SPEED : ℚ := 185

/-- `TICK_MS = 50`. -/
def TICK_MS : ℚ := 50

/-- `MAX_ROOM_PLAYERS = 12`. -/
def MAX_ROOM_PLAYERS : ℕ := 12

/-- `DEFAULT_ROOM_ID = "studio-1"`. -/
def DEFAULT_ROOM_ID : String := "studio-1"

/-- `ALLOWED_EMOTES` from `server/src/game/content.js` (a `Set`,
    modelled as the list of its members). -/
def ALLOWED_EMOTES : List String :=
  ["wave", "heart", "sparkle", "laugh", "jump", "pickup", "openlid",
   "sittingvictory", "happywalk"]

/-! ## Tick-loop position integration (`setInterval` body, server index) -/

/-- One tick's position update for one coordinate, from the tick loop:
    `player.x = clamp(player.x + player.vx * dt, PLAYER_PADDING, WORLD.w - PLAYER_PADDING)`
    with `player.vx = player.ix * PLAYER_SPEED` and `dt = TICK_MS / 1000`. -/
def tickCoord (hiBound : ℚ) (x intent : ℚ) : ℚ :=
  clamp (x + intent * PLAYER_SPEED * (TICK_MS / 1000)) PLAYER_PADDING
    (hiBound - PLAYER_PADDING)

/-- One tick's position update for a player position, x then y. -/
def tickPos (p : ℚ × ℚ) (intent : ℚ × ℚ) : ℚ × ℚ :=
  (tickCoord WORLD.1 p.1 intent.1, tickCoord WORLD.2 p.2 intent.2)

/-- Iterated tick-loop position integration over a sequence of
    (already stored) intent vectors, oldest first. -/
def runTicks (p : ℚ × ℚ) (intents : List (ℚ × ℚ)) : ℚ × ℚ :=
  intents.foldl tickPos p

/-- Spawn position from the join handler:
    `WORLD.w / 2 + Math.random() * 40 - 20` (resp. `h`), with
    `r₁ r₂ ∈ [0,1)` standing for the two `Math.random()` draws. -/
def spawnPos (r₁ r₂ : ℚ) : ℚ × ℚ :=
  (WORLD.1 / 2 + r₁ * 40 - 20, WORLD.2 / 2 + r₂ * 40 - 20)

/-! ## `normalizeIntent` (server index, §geometry utilities)

The source computes with JS doubles; we embed it over `ℝ`, with
`Math.hypot` as `Real.sqrt` of the sum of squares. A component that is
not a finite number (`NaN`/`±Infinity`, for which
`Number.isFinite` is false) is modelled as `none`. -/

/-- `Number.isFinite(v) ? v : 0` — the non-finite substitution at the
    top of `normalizeIntent`. -/
def finOr0 : Option ℝ → ℝ
  | some v => v
  | none => 0

/-- `Math.hypot(x, y)` over `ℝ`. -/
noncomputable def hypot (x y : ℝ) : ℝ := Real.sqrt (x ^ 2 + y ^ 2)

/-- `normalizeIntent(ix, iy)` from `server/src/index.js`: substitute 0
    for non-finite components, then return the zero vector when the
    magnitude is at most `0.0001`, the input unchanged when the
    magnitude is at most 1, and the input scaled by its magnitude
    otherwise. -/
noncomputable def normalizeIntent (ix iy : Option ℝ) : ℝ × ℝ :=
  let x := finOr0 ix
  let y := finOr0 iy
  let length := hypot x y
  if length ≤ 0.0001 then (0, 0)
  else if length ≤ 1 then (x, y)
  else (x / length, y / length)

theorem hypot_nonneg (x y : ℝ) : 0 ≤ hypot x y := Real.sqrt_nonneg _

theorem hypot_sq (x y : ℝ) : hypot x y ^ 2 = x ^ 2 + y ^ 2 :=
  Real.sq_sqrt (by positivity)

theorem hypot_zero : hypot 0 0 = 0 := by
  simp [hypot]

theorem hypot_scale_unit {x y : ℝ} (h : 1 < hypot x y) :
    hypot (x / hypot x y) (y / hypot x y) = 1 := by
  have hpos : 0 < hypot x y := lt_trans one_pos h
  have hne : hypot x y ≠ 0 := ne_of_gt hpos
  have hsum : (x / hypot x y) ^ 2 + (y / hypot x y) ^ 2 = 1 := by
    field_simp
    rw [← hypot_sq x y]
  rw [hypot, hsum, Real.sqrt_one]

theorem normalizeIntent_eq_some (ix iy : Option ℝ) :
    normalizeIntent ix iy = normalizeIntent (some (finOr0 ix)) (some (finOr0 iy)) :=
  rfl

theorem normalizeIntent_zero_branch {x y : ℝ} (h : hypot x y ≤ 0.0001) :
    normalizeIntent (some x) (some y) = (0, 0) := by
  simp only [normalizeIntent, finOr0]
  rw [if_pos h]

theorem normalizeIntent_pass {x y : ℝ} (h0 : ¬ hypot x y ≤ 0.0001)
    (h1 : hypot x y ≤ 1) :
    normalizeIntent (some x) (some y) = (x, y) := by
  simp only [normalizeIntent, finOr0]
  rw [if_neg h0, if_pos h1]

theorem normalizeIntent_scale {x y : ℝ} (h1 : ¬ hypot x y ≤ 1) :
    normalizeIntent (some x) (some y) = (x / hypot x y, y / hypot x y) := by
  have h0 : ¬ hypot x y ≤ 0.0001 := fun hc => h1 (le_trans hc (by norm_num))
  simp only [normalizeIntent, finOr0]
  rw [if_neg h0, if_neg h1]

theorem normalizeIntent_mag_le_one (ix iy : Option ℝ) :
    hypot (normalizeIntent ix iy).1 (normalizeIntent ix iy).2 ≤ 1 := by
  rw [normalizeIntent_eq_some]
  set x := finOr0 ix with hx
  set y := finOr0 iy with hy
  by_cases h0 : hypot x y ≤ 0.0001
  · rw [normalizeIntent_zero_branch h0]
    simpa using hypot_zero.le.trans zero_le_one
  · by_cases h1 : hypot x y ≤ 1
    · rw [normalizeIntent_pass h0 h1]
      exact h1
    · rw [normalizeIntent_scale h1]
      exact le_of_eq (hypot_scale_unit (not_le.mp h1))

theorem normalizeIntent_idempotent (ix iy : Option ℝ) :
    normalizeIntent (some (normalizeIntent ix iy).1)
        (some (normalizeIntent ix iy).2) = normalizeIntent ix iy := by
  rw [normalizeIntent_eq_some ix iy]
  set x := finOr0 ix with hx
  set y := finOr0 iy with hy
  by_cases h0 : hypot x y ≤ 0.0001
  · rw [normalizeIntent_zero_branch h0]
    exact normalizeIntent_zero_branch (by simpa using hypot_zero.le.trans (by norm_num))
  · by_cases h1 : hypot x y ≤ 1
    · rw [normalizeIntent_pass h0 h1]
      exact normalizeIntent_pass h0 h1
    · rw [normalizeIntent_scale h1]
      have hm : hypot (x / hypot x y) (y / hypot x y) = 1 :=
        hypot_scale_unit (not_le.mp h1)
      exact normalizeIntent_pass (by rw [hm]; norm_num) (le_of_eq hm)

/-- **C2.** `normalizeIntent` is total and deterministic (a Lean
    function), and: (1) every output has magnitude at most 1 (hence at
    most `1 + ε` for any `ε ≥ 0`); (2) inputs of magnitude at most the
    small epsilon `0.0001` map to the zero vector; (3) inputs of
    magnitude above the epsilon but at most 1 pass through unchanged;
    (4) inputs of magnitude above 1 are scaled to unit magnitude;
    (5) `normalizeIntent` is idempotent (in particular on inputs of
    magnitude at most 1); (6) a non-finite component is substituted by
    0. -/
theorem normalizeIntent_spec :
    (∀ ix iy : Option ℝ,
        hypot (normalizeIntent ix iy).1 (normalizeIntent ix iy).2 ≤ 1) ∧
    (∀ x y : ℝ, hypot x y ≤ 0.0001 →
        normalizeIntent (some x) (some y) = (0, 0)) ∧
    (∀ x y : ℝ, ¬ hypot x y ≤ 0.0001 → hypot x y ≤ 1 →
        normalizeIntent (some x) (some y) = (x, y)) ∧
    (∀ x y : ℝ, 1 < hypot x y →
        hypot (normalizeIntent (some x) (some y)).1
          (normalizeIntent (some x) (some y)).2 = 1) ∧
    (∀ ix iy : Option ℝ,
        normalizeIntent (some (normalizeIntent ix iy).1)
          (some (normalizeIntent ix iy).2) = normalizeIntent ix iy) ∧
    (∀ iy : Option ℝ, normalizeIntent none iy = normalizeIntent (some 0) iy) ∧
    (∀ ix : Option ℝ, normalizeIntent ix none = normalizeIntent ix (some 0)) := by
  refine ⟨normalizeIntent_mag_le_one, ?_, ?_, ?_, normalizeIntent_idempotent,
    fun _ => rfl, fun _ => rfl⟩
  · exact fun x y h => normalizeIntent_zero_branch h
  · exact fun x y h0 h1 => normalizeIntent_pass h0 h1
  · intro x y h
    rw [normalizeIntent_scale (not_le.mpr h)]
    exact hypot_scale_unit h

/-- Closed instantiation of `normalizeIntent_spec`: a sub-unit input
    passes through, an over-unit input is scaled to unit magnitude, a
    sub-epsilon input maps to zero. -/
theorem normalizeIntent_spec_witness :
    normalizeIntent (some (3 / 5 : ℝ)) (some (4 / 5)) = (3 / 5, 4 / 5) ∧
    hypot (normalizeIntent (some (3 : ℝ)) (some 4)).1
        (normalizeIntent (some (3 : ℝ)) (some 4)).2 = 1 ∧
    normalizeIntent (some (0 : ℝ)) (some 0) = (0, 0) := by
  have h := normalizeIntent_spec
  have h35 : hypot (3 / 5 : ℝ) (4 / 5) = 1 := by
    rw [hypot, show ((3 / 5 : ℝ) ^ 2 + (4 / 5) ^ 2) = 1 by norm_num,
      Real.sqrt_one]
  have h34 : hypot (3 : ℝ) 4 = 5 := by
    rw [hypot, show ((3 : ℝ) ^ 2 + 4 ^ 2) = 5 ^ 2 by norm_num,
      Real.sqrt_sq (by norm_num)]
  refine ⟨h.2.2.1 _ _ ?_ ?_, h.2.2.2.1 3 4 ?_, h.2.1 0 0 ?_⟩
  · rw [h35]; norm_num
  · rw [h35]
  · rw [h34]; norm_num
  · rw [hypot_zero]; norm_num

/-! ## Zone index (`client/src/game/zones.js`) -/

/-- Rectangle bounds record of a `rect` zone definition. -/
structure RectBounds where
  xMin : ℚ
  xMax : ℚ
  yMin : ℚ
  yMax : ℚ
  deriving DecidableEq, Repr

/-- Shape descriptor of a zone definition. `rect none` models a rect
    zone whose `bounds` object is absent (`zone.bounds || {}` then makes
    every comparison against `undefined` false). For `perimeter`,
    `inset` is the raw `zone.bounds?.inset` value (`none` = absent);
    the `Number(... || 240)` fallback is applied at use, so an absent
    or zero inset both read as 240. `other` models any further `type`
    string, which both branches of the source skip. -/
inductive ZoneShape where
  | rect (b : Option RectBounds)
  | perimeter (inset : Option ℚ)
  | other
  deriving DecidableEq, Repr

/-- A zone definition: id plus shape (name/miniGameId are irrelevant to
    resolution and omitted). -/
structure Zone where
  id : String
  shape : ZoneShape
  deriving DecidableEq, Repr

/-- `DEFAULT_ZONE_DEFS` from `client/src/game/zones.js`. -/
def DEFAULT_ZONE_DEFS : List Zone :=
  [⟨"stage", .rect (some ⟨1840, 2760, 120, 720⟩)⟩,
   ⟨"workshop", .rect (some ⟨120, 980, 220, 980⟩)⟩,
   ⟨"lounge", .rect (some ⟨980, 1720, 980, 1680⟩)⟩,
   ⟨"gallery", .rect (some ⟨1840, 2760, 840, 1700⟩)⟩,
   ⟨"walkway", .perimeter (some 240)⟩]

/-- `WORLD_DEFAULT = { w: 1400, h: 900 }` from `client/src/game/constants.js`. -/
def WORLD_DEFAULT : ℚ × ℚ := (1400, 900)

/-- `getWorldDimensions(world)`: the argument when both components are
    finite numbers (`none` models a missing/non-finite world), else
    `WORLD_DEFAULT`. -/
def getWorldDimensions (world : Option (ℚ × ℚ)) : ℚ × ℚ :=
  match world with
  | some wh => wh
  | none => WORLD_DEFAULT

/-- Effective perimeter inset: `Number(zone.bounds?.inset || 240)`
    (absent or `0` both fall back to 240). -/
def effInset (inset : Option ℚ) : ℚ :=
  match inset with
  | some i => if i = 0 then 240 else i
  | none => 240

/-- The per-zone containment test performed by the loop body of
    `getZoneIdAtPosition`: rect bounds membership for `rect` zones,
    the edge-band condition for `perimeter` zones, false otherwise. -/
def zoneMatches (w h : ℚ) (z : Zone) (x y : ℚ) : Bool :=
  match z.shape with
  | .rect none => false
  | .rect (some b) => decide (b.xMin ≤ x ∧ x ≤ b.xMax ∧ b.yMin ≤ y ∧ y ≤ b.yMax)
  | .perimeter inset =>
      let i := effInset inset
      decide (x ≤ i ∨ y ≤ i ∨ w - i ≤ x ∨ h - i ≤ y)
  | .other => false

/-- The `for` loop of `getZoneIdAtPosition`, translated branch for
    branch: a `rect` zone returns its id when the point is inside its
    bounds and is otherwise skipped (`continue`); a `perimeter` zone
    returns its id when the band condition holds; any other shape falls
    through; reaching the end returns `null`. -/
def zoneLoop (w h : ℚ) (x y : ℚ) : List Zone → Option String
  | [] => none
  | z :: rest =>
      match z.shape with
      | .rect none => zoneLoop w h x y rest
      | .rect (some b) =>
          if b.xMin ≤ x ∧ x ≤ b.xMax ∧ b.yMin ≤ y ∧ y ≤ b.yMax then some z.id
          else zoneLoop w h x y rest
      | .perimeter inset =>
          let i := effInset inset
          if x ≤ i ∨ y ≤ i ∨ w - i ≤ x ∨ h - i ≤ y then some z.id
          else zoneLoop w h x y rest
      | .other => zoneLoop w h x y rest

/-- `getZoneIdAtPosition(zones, x, y, world)` from
    `client/src/game/zones.js`: empty/missing zone list falls back to
    `DEFAULT_ZONE_DEFS`, world dimensions are resolved, then the zone
    list is scanned in declaration order. -/
def getZoneIdAtPosition (zones : List Zone) (x y : ℚ)
    (world : Option (ℚ × ℚ)) : Option String :=
  let list := if zones.isEmpty then DEFAULT_ZONE_DEFS else zones
  let wh := getWorldDimensions world
  zoneLoop wh.1 wh.2 x y list

/-- Spec-side formulation of zone resolution (from the spec's words):
    the id of the *first* zone, in declaration order, whose containment
    test holds, and `null` when no zone matches. -/
def zoneResolveSpec (zones : List Zone) (x y : ℚ)
    (world : Option (ℚ × ℚ)) : Option String :=
  let list := if zones.isEmpty then DEFAULT_ZONE_DEFS else zones
  let wh := getWorldDimensions world
  (list.find? (fun z => zoneMatches wh.1 wh.2 z x y)).map Zone.id

theorem clamp_mem_of_le {lo hi : ℚ} (v : ℚ) (h : lo ≤ hi) :
    lo ≤ clamp v lo hi ∧ clamp v lo hi ≤ hi := by
  unfold clamp
  constructor
  · exact le_max_left lo _
  · exact max_le h (min_le_left hi v)

theorem tickCoord_mem (hiBound : ℚ) (x intent : ℚ)
    (h : PLAYER_PADDING ≤ hiBound - PLAYER_PADDING) :
    PLAYER_PADDING ≤ tickCoord hiBound x intent ∧
      tickCoord hiBound x intent ≤ hiBound - PLAYER_PADDING :=
  clamp_mem_of_le _ h

theorem zoneLoop_cons (w h x y : ℚ) (z : Zone) (rest : List Zone) :
    zoneLoop w h x y (z :: rest) =
      if zoneMatches w h z x y then some z.id else zoneLoop w h x y rest := by
  rcases z with ⟨zid, shape⟩
  rcases shape with b | inset | _
  · rcases b with _ | b
    · simp [zoneLoop, zoneMatches]
    · simp only [zoneLoop, zoneMatches]
      by_cases hc : b.xMin ≤ x ∧ x ≤ b.xMax ∧ b.yMin ≤ y ∧ y ≤ b.yMax
      · simp [hc]
      · simp [hc]
  · simp only [zoneLoop, zoneMatches]
    by_cases hc : x ≤ effInset inset ∨ y ≤ effInset inset ∨
        w - effInset inset ≤ x ∨ h - effInset inset ≤ y
    · simp [hc]
    · simp [hc]
  · simp [zoneLoop, zoneMatches]

theorem zoneLoop_eq_find (w h x y : ℚ) (list : List Zone) :
    zoneLoop w h x y list =
      (list.find? (fun z => zoneMatches w h z x y)).map Zone.id := by
  induction list with
  | nil => rfl
  | cons z rest ih =>
      rw [zoneLoop_cons, List.find?_cons]
      cases hm : zoneMatches w h z x y
      · simpa [hm] using ih
      · simp [hm]

/-- **C4.** Zone resolution is a pure, deterministic function of
    (position, zone-definition-set): `getZoneIdAtPosition` equals the
    first-match scan (in declaration order) of the per-zone containment
    test — rect zones by rectangle membership, perimeter zones by the
    edge-band condition — returning `none` when no zone matches; being
    an `Option`-valued Lean function it returns at most one zone id and
    is deterministic, with declaration order as the tie-break. -/
theorem getZoneIdAtPosition_spec (zones : List Zone) (x y : ℚ)
    (world : Option (ℚ × ℚ)) :
    getZoneIdAtPosition zones x y world = zoneResolveSpec zones x y world := by
  unfold getZoneIdAtPosition zoneResolveSpec
  exact zoneLoop_eq_find _ _ x y _

/-- **C3.** For every spawn randomness pair in `[0,1)` and every finite
    sequence of stored intent vectors, the player position after the
    tick loop has run any number of times stays within
    `[PLAYER_PADDING, WORLD.w - PLAYER_PADDING] ×
     [PLAYER_PADDING, WORLD.h - PLAYER_PADDING]`:
    each tick integrates `position += intent * PLAYER_SPEED * dt` and
    clamps into those bounds. -/
theorem runTicks_in_bounds (r₁ r₂ : ℚ) (h₁ : 0 ≤ r₁) (h₁' : r₁ < 1)
    (h₂ : 0 ≤ r₂) (h₂' : r₂ < 1) (intents : List (ℚ × ℚ)) :
    PLAYER_PADDING ≤ (runTicks (spawnPos r₁ r₂) intents).1 ∧
      (runTicks (spawnPos r₁ r₂) intents).1 ≤ WORLD.1 - PLAYER_PADDING ∧
      PLAYER_PADDING ≤ (runTicks (spawnPos r₁ r₂) intents).2 ∧
      (runTicks (spawnPos r₁ r₂) intents).2 ≤ WORLD.2 - PLAYER_PADDING := by
  have hgen : ∀ (ints : List (ℚ × ℚ)) (p : ℚ × ℚ),
      PLAYER_PADDING ≤ p.1 → p.1 ≤ WORLD.1 - PLAYER_PADDING →
      PLAYER_PADDING ≤ p.2 → p.2 ≤ WORLD.2 - PLAYER_PADDING →
      PLAYER_PADDING ≤ (runTicks p ints).1 ∧
        (runTicks p ints).1 ≤ WORLD.1 - PLAYER_PADDING ∧
        PLAYER_PADDING ≤ (runTicks p ints).2 ∧
        (runTicks p ints).2 ≤ WORLD.2 - PLAYER_PADDING := by
    intro ints
    induction ints with
    | nil => intro p a b c d; exact ⟨a, b, c, d⟩
    | cons i rest ih =>
        intro p _ _ _ _
        have hx := tickCoord_mem WORLD.1 p.1 i.1
          (by norm_num [PLAYER_PADDING, WORLD])
        have hy := tickCoord_mem WORLD.2 p.2 i.2
          (by norm_num [PLAYER_PADDING, WORLD])
        exact ih (tickPos p i) hx.1 hx.2 hy.1 hy.2
  refine hgen intents (spawnPos r₁ r₂) ?_ ?_ ?_ ?_ <;>
    simp only [spawnPos, WORLD, PLAYER_PADDING] <;> nlinarith

/-- Closed instantiation of `runTicks_in_bounds`. -/
theorem runTicks_in_bounds_witness :
    PLAYER_PADDING ≤ (runTicks (spawnPos (1/2) (1/4)) [(1, 0), (-1, 1)]).1 ∧
      (runTicks (spawnPos (1/2) (1/4)) [(1, 0), (-1, 1)]).1 ≤
        WORLD.1 - PLAYER_PADDING ∧
      PLAYER_PADDING ≤ (runTicks (spawnPos (1/2) (1/4)) [(1, 0), (-1, 1)]).2 ∧
      (runTicks (spawnPos (1/2) (1/4)) [(1, 0), (-1, 1)]).2 ≤
        WORLD.2 - PLAYER_PADDING :=
  runTicks_in_bounds (1/2) (1/4) (by norm_num) (by norm_num) (by norm_num)
    (by norm_num) [(1, 0), (-1, 1)]

/-! ## Events

One constructor per message/effect call site that the claims observe.
`io.to(room).emit(...)` and `emitToUser(user, ...)` executions append
one trace entry each. `questDeltaCall` records a call into
`applyQuestDelta` (whose store-level per-quest body is modelled
separately as `applyQuestDeltaCore`); `awardCall` records a call into
`awardMiniGameReward` (modelled separately on the store). -/
inductive Event where
  | actionResult (gameId playerId action : String) (success : Bool)
      (scoreDelta : ℤ) (combo : ℤ)
  | emote (playerId ty : String) (ts : ℤ)
  | joinErrorFull (roomId : String) (maxPlayers : ℕ)
  | joinErrorAuth
  | welcome (selfId roomId : String)
  | playerJoined (playerId : String)
  | questDeltaCall (userId : Option String) (questType : String) (delta : ℤ)
      (gameId : Option String) (combo : Option ℤ)
  | questDeltaEmote (userId : Option String) (emoteTy : String) (nearby : Bool)
  | awardCall (playerId gameId sourceRef : String) (stars xp : ℤ)
  | questProgress (userId questId : String) (value : ℤ) (completed : Bool)
  | currencyGrant (userId : String) (amount balance : ℤ) (source : String)
  | unlockGrant (userId unlockId category : String)
  | minigameRewardMsg (userId gameId playerId : String) (stars xp : ℤ)
      (sourceRef : String) (balance level totalXp : Option ℤ)
  deriving DecidableEq, Repr

/-- The per-connection player entity (fields the claims need; name,
    color, avatar, intent, velocity, anim, voice and quest-accumulator
    fields are carried by the source but unread by the modelled
    operations). -/
structure Player where
  id : String
  userId : Option String
  roomId : String
  x : ℚ
  y : ℚ
  zoneId : Option String
  deriving DecidableEq, Repr

/-- `listPlayersByRoom(roomId)`: the players map filtered to a room,
    in map (insertion) order. -/
def listPlayersByRoom (players : List Player) (roomId : String) : List Player :=
  players.filter (fun p => p.roomId = roomId)

/-- `countPlayersInRoom(roomId)`. -/
def countPlayersInRoom (players : List Player) (roomId : String) : ℕ :=
  (listPlayersByRoom players roomId).length

/-- JS `a || d` for an optionally-present numeric field: absent and `0`
    both fall back to the default (`Number(gameDef.field || dflt)`). -/
def numOr (o : Option ℤ) (d : ℤ) : ℤ :=
  match o with
  | some v => if v = 0 then d else v
  | none => d

/-- JS `a || d` for an optionally-present string: absent and `""` both
    fall back to the default. -/
def strOr (o : Option String) (d : String) : String :=
  match o with
  | some s => if s = "" then d else s
  | none => d

/-- Exact-real equivalent of `Math.hypot(dx, dy) <= r` for `r ≥ 0`,
    kept in `ℚ` via squaring. -/
def distLe (dx dy r : ℚ) : Bool :=
  decide (dx ^ 2 + dy ^ 2 ≤ r ^ 2)

/-- A reward milestone from a `MINI_GAME_DEFS` entry. `marker` is the
    threshold after the source's `Number(milestone.combo || 0)`
    (rhythm/echo) resp. `Number(milestone.streak || 0)` (relay). -/
structure Milestone where
  marker : ℤ
  stars : ℤ
  xp : ℤ
  deriving DecidableEq, Repr

/-- A `MINI_GAME_DEFS` entry (the fields read by the embedded
    handlers; the glow-trail waypoint fields are only read by the
    glow-trail tick branch, which no claim touches, and are omitted).
    The concrete `MINI_GAME_DEFS` list lives in the server's
    `game/content.js`, which is not among the provided sources, so all
    theorems are stated for arbitrary definitions. -/
structure GameDef where
  id : String
  zoneId : String
  promptOrder : List String
  responseWindowMs : Option ℤ
  promptEveryMs : Option ℤ
  sequence : List String
  stepWindowMs : Option ℤ
  idleDecayMs : Option ℤ
  rewardMilestones : List Milestone
  deriving DecidableEq, Repr

/-! ## Rhythm/Echo mini-game (`emote_echo_circle`) -/

/-- Runtime state of the rhythm/echo game
    (`createMiniGameRuntime`, branch `emote_echo_circle`). -/
structure EchoState where
  phase : String
  promptIndex : ℕ
  prompt : String
  combo : ℤ
  progress : ℚ
  participants : List String
  responded : List String
  promptExpiresAt : ℤ
  nextPromptAt : ℤ
  cycle : ℤ
  awardedMilestones : List ℤ
  deriving DecidableEq, Repr

/-- `createMiniGameRuntime(gameDef, now)`, branch `emote_echo_circle`. -/
def createEchoRuntime (gameDef : GameDef) (now : ℤ) : EchoState :=
  { phase := "active"
    promptIndex := 0
    prompt := strOr (gameDef.promptOrder.get? 0) "wave"
    combo := 0
    progress := 0
    participants := []
    responded := []
    promptExpiresAt := now + numOr gameDef.responseWindowMs 1800
    nextPromptAt := now + numOr gameDef.promptEveryMs 4000
    cycle := 1
    awardedMilestones := [] }

/-- The milestone `for` loop inside `handleEmoteEchoAction`: for each
    milestone, skip when the marker is falsy, not yet reached, or
    already awarded; otherwise record it, call `applyQuestDelta`
    (`minigame_combo`) and call `awardMiniGameReward` for every player
    currently in the owning zone. -/
def echoMilestoneFold (gameDef : GameDef) (roomPlayers : List Player)
    (userId : Option String) (cycle combo : ℤ) :
    List Milestone → List ℤ → List ℤ × List Event
  | [], awarded => (awarded, [])
  | m :: rest, awarded =>
      if m.marker = 0 ∨ combo < m.marker ∨ m.marker ∈ awarded then
        echoMilestoneFold gameDef roomPlayers userId cycle combo rest awarded
      else
        let rewardPlayers :=
          roomPlayers.filter (fun p => p.zoneId = some gameDef.zoneId)
        let evs :=
          Event.questDeltaCall userId "minigame_combo" 1 (some gameDef.id)
              (some m.marker) ::
            rewardPlayers.map (fun rp =>
              Event.awardCall rp.id gameDef.id
                ("cycle:" ++ toString cycle ++ ":combo:" ++ toString m.marker ++
                  ":player:" ++ rp.id)
                m.stars m.xp)
        let r := echoMilestoneFold gameDef roomPlayers userId cycle combo rest
          (m.marker :: awarded)
        (r.1, evs ++ r.2)

/-- `handleEmoteEchoAction(roomId, gameDef, gameState, player, action, now)`.
    Returns (consumed, next state, emitted events / recorded effect
    calls). `roomPlayers` stands for `listPlayersByRoom(roomId)`. -/
def handleEmoteEchoAction (gameDef : GameDef) (roomPlayers : List Player)
    (st : EchoState) (player : Player) (action : String) (now : ℤ) :
    Bool × EchoState × List Event :=
  if player.zoneId ≠ some gameDef.zoneId then (false, st, [])
  else if st.promptExpiresAt < now ∨ action ≠ st.prompt then
    (true, st, [.actionResult gameDef.id player.id action false 0 st.combo])
  else if player.id ∈ st.responded then (true, st, [])
  else
    let st1 : EchoState := { st with
      responded := addUnique st.responded player.id
      participants := addUnique st.participants player.id
      combo := st.combo + 1 }
    let st2 : EchoState := { st1 with
      progress := ((st1.responded.length : ℚ)) }
    let m := echoMilestoneFold gameDef roomPlayers player.userId st2.cycle
      st2.combo gameDef.rewardMilestones st2.awardedMilestones
    (true, { st2 with awardedMilestones := m.1 },
      .actionResult gameDef.id player.id action true 1 st2.combo ::
        .questDeltaCall player.userId "minigame_participation" 1
          (some gameDef.id) none ::
        m.2)

/-- The `emote_echo_circle` branch of `stepMiniGamesForRoom`: recompute
    participants from zone occupancy, apply the zero-responder decay,
    roll the prompt over when due, then derive phase and progress. The
    trailing `minigame_state` broadcast carries no state and is not
    modelled. -/
def echoTick (gameDef : GameDef) (st : EchoState) (zonePlayers : List Player)
    (now : ℤ) : EchoState :=
  let st0 : EchoState := { st with participants := zonePlayers.map Player.id }
  let st1 : EchoState :=
    if st0.promptExpiresAt < now ∧ st0.responded = [] then
      { st0 with combo := max 0 (st0.combo - 1) }
    else st0
  let st2 : EchoState :=
    if st1.nextPromptAt ≤ now then
      let len := max 1 gameDef.promptOrder.length
      let idx := (st1.promptIndex + 1) % len
      { st1 with
        promptIndex := idx
        prompt := strOr (gameDef.promptOrder.get? idx) "wave"
        responded := []
        promptExpiresAt := now + numOr gameDef.responseWindowMs 1800
        nextPromptAt := now + numOr gameDef.promptEveryMs 4000
        cycle := st1.cycle + 1
        awardedMilestones := [] }
    else st1
  { st2 with
    phase := if now ≤ st2.promptExpiresAt then "prompt" else "cooldown"
    progress :=
      if zonePlayers.length ≠ 0 then
        (st2.responded.length : ℚ) / (zonePlayers.length : ℚ)
      else 0 }

/-! ## C1: rhythm/echo zero-responder decay -/

/-- A concrete echo game definition exercising the source's default
    windows (`responseWindowMs || 1800`, `promptEveryMs || 4000`). -/
def echoDefEx : GameDef :=
  { id := "emote_echo_circle"
    zoneId := "stage"
    promptOrder := ["wave", "heart", "sparkle", "laugh"]
    responseWindowMs := none
    promptEveryMs := none
    sequence := []
    stepWindowMs := none
    idleDecayMs := none
    rewardMilestones := [] }

/-- The echo runtime created at `now = 0`, with the combo set to 2. -/
def echoStateEx : EchoState := { createEchoRuntime echoDefEx 0 with combo := 2 }

/-- The tick-loop instants of one full prompt cycle at the source's
    50 ms cadence: 50, 100, ..., 4000. -/
def echoTickTimes : List ℤ := (List.range 80).map (fun k => 50 * ((k : ℤ) + 1))

/-- The echo state after stepping through one full cycle with an empty
    zone (hence zero responders). -/
def echoRunEx : EchoState :=
  echoTickTimes.foldl (fun st t => echoTick echoDefEx st [] t) echoStateEx

set_option maxRecDepth 100000

/-- **C1 counterexample.** Starting a full prompt cycle with combo 2
    and zero responders throughout, the combo at the start of the next
    cycle is 0, not `max 0 (2 - 1) = 1`: the decay fires on every tick
    after the response deadline, not once per cycle. -/
theorem echo_decay_counterexample :
    echoRunEx.combo = 0 ∧ echoRunEx.cycle = 2 ∧
      ¬ echoRunEx.combo = max 0 (2 - 1) := by
  decide

/-- **C1 (amended).** In the rhythm/echo mini-game, every tick that
    falls strictly after the response deadline while the responded set
    is empty decrements the combo by exactly one, floored at zero (so a
    cycle with zero responders loses one combo point per post-deadline
    tick, not one per cycle); a tick at or before the deadline, or one
    with a non-empty responded set, leaves the combo unchanged. -/
theorem echoTick_decay_spec (gameDef : GameDef) (st : EchoState)
    (zonePlayers : List Player) (now : ℤ) :
    (st.promptExpiresAt < now → st.responded = [] →
      (echoTick gameDef st zonePlayers now).combo = max 0 (st.combo - 1)) ∧
    (¬ st.promptExpiresAt < now →
      (echoTick gameDef st zonePlayers now).combo = st.combo) ∧
    (st.responded ≠ [] →
      (echoTick gameDef st zonePlayers now).combo = st.combo) := by
  refine ⟨?_, ?_, ?_⟩ <;> intro h
  · intro h2
    simp only [echoTick]
    split_ifs <;> simp_all
  · simp only [echoTick]
    split_ifs <;> simp_all
  · simp only [echoTick]
    split_ifs <;> simp_all

/-- Closed instantiation of `echoTick_decay_spec`: one post-deadline
    tick with zero responders takes the combo from 5 to 4. -/
theorem echoTick_decay_spec_witness :
    (echoTick echoDefEx { createEchoRuntime echoDefEx 0 with combo := 5 } []
        2000).combo = max 0 (5 - 1) :=
  (echoTick_decay_spec echoDefEx
      { createEchoRuntime echoDefEx 0 with combo := 5 } [] 2000).1
    (by decide) (by decide)

/-! ## C5: rhythm/echo action handling -/

/-- **C5 (amended).** For a player whose zone is the echo game's owning
    zone: the action is consumed with combo incremented by exactly one
    and a success result (`scoreDelta` 1) emitted first iff it matches
    the current prompt, the deadline has not passed, and the player has
    not yet responded this prompt; a mismatched or late action emits a
    failure result with zero score delta and leaves the state
    unchanged; a matching in-time action from a player who already
    responded is consumed *silently* — no result of any kind is emitted
    and the state is unchanged — so sending the matching action twice
    before the next prompt increases the combo by exactly one. -/
theorem handleEmoteEchoAction_spec (gameDef : GameDef)
    (roomPlayers : List Player) (st : EchoState) (player : Player)
    (action : String) (now : ℤ)
    (hz : player.zoneId = some gameDef.zoneId) :
    (¬ st.promptExpiresAt < now → action = st.prompt →
      player.id ∉ st.responded →
      (handleEmoteEchoAction gameDef roomPlayers st player action now).1 = true ∧
      (handleEmoteEchoAction gameDef roomPlayers st player action now).2.1.combo
          = st.combo + 1 ∧
      ∃ rest,
        (handleEmoteEchoAction gameDef roomPlayers st player action now).2.2 =
          Event.actionResult gameDef.id player.id action true 1 (st.combo + 1)
            :: rest) ∧
    (st.promptExpiresAt < now ∨ action ≠ st.prompt →
      handleEmoteEchoAction gameDef roomPlayers st player action now =
        (true, st,
          [Event.actionResult gameDef.id player.id action false 0 st.combo])) ∧
    (¬ st.promptExpiresAt < now → action = st.prompt →
      player.id ∈ st.responded →
      handleEmoteEchoAction gameDef roomPlayers st player action now
        = (true, st, [])) ∧
    (∀ now₂ : ℤ, ¬ st.promptExpiresAt < now → ¬ st.promptExpiresAt < now₂ →
      action = st.prompt → player.id ∉ st.responded →
      (handleEmoteEchoAction gameDef roomPlayers
          (handleEmoteEchoAction gameDef roomPlayers st player action now).2.1
          player action now₂).2.1.combo = st.combo + 1) := by
  have hz' : ¬ player.zoneId ≠ some gameDef.zoneId := by simp [hz]
  refine ⟨?_, ?_, ?_, ?_⟩
  · intro hd hp hr
    have hcond : ¬ (st.promptExpiresAt < now ∨ action ≠ st.prompt) := by
      simp [hd, hp]
    simp only [handleEmoteEchoAction, if_neg hz', if_neg hcond, if_neg hr]
    exact ⟨trivial, trivial, _, rfl⟩
  · intro hcond
    simp only [handleEmoteEchoAction, if_neg hz', if_pos hcond]
  · intro hd hp hr
    have hcond : ¬ (st.promptExpiresAt < now ∨ action ≠ st.prompt) := by
      simp [hd, hp]
    simp only [handleEmoteEchoAction, if_neg hz', if_neg hcond, if_pos hr]
  · intro now₂ hd hd₂ hp hr
    have hcond : ¬ (st.promptExpiresAt < now ∨ action ≠ st.prompt) := by
      simp [hd, hp]
    simp only [handleEmoteEchoAction, if_neg hz', if_neg hcond, if_neg hr]
    have hmem : player.id ∈ addUnique st.responded player.id := by
      simp [addUnique, hr]
    have hcond₂ : ¬ (st.promptExpiresAt < now₂ ∨ action ≠ st.prompt) := by
      simp [hd₂, hp]
    simp only [handleEmoteEchoAction, if_neg hz', if_neg hcond₂, if_pos hmem]

/-- Concrete player inside the echo zone. -/
def echoPlayerEx : Player :=
  { id := "p1", userId := none, roomId := "studio-1", x := 2000, y := 400,
    zoneId := some "stage" }

/-- Concrete echo state: prompt "wave" live until t = 1800. -/
def echoPromptStateEx : EchoState := createEchoRuntime echoDefEx 0

/-- Closed instantiation of `handleEmoteEchoAction_spec`: a first
    matching in-time "wave" succeeds with combo 1, and a second send
    before the next prompt still yields combo 1. -/
theorem handleEmoteEchoAction_spec_witness :
    (handleEmoteEchoAction echoDefEx [] echoPromptStateEx echoPlayerEx "wave"
        500).2.1.combo = 0 + 1 ∧
    (handleEmoteEchoAction echoDefEx []
        (handleEmoteEchoAction echoDefEx [] echoPromptStateEx echoPlayerEx
          "wave" 500).2.1
        echoPlayerEx "wave" 900).2.1.combo = 0 + 1 := by
  have h := handleEmoteEchoAction_spec echoDefEx [] echoPromptStateEx
    echoPlayerEx "wave" 500 (by decide)
  exact ⟨(h.1 (by decide) (by decide) (by decide)).2.1,
    h.2.2.2 900 (by decide) (by decide) (by decide) (by decide)⟩

/-- The already-responded state used by the C5 counterexample. -/
def echoRespondedStateEx : EchoState :=
  { createEchoRuntime echoDefEx 0 with responded := ["p1"], combo := 1 }

/-- **C5 counterexample.** A matching, in-time action from a player who
    has already responded this prompt emits *no* result at all (the
    event trace is empty and the state is returned unchanged), whereas
    the claim asserts that a failure result with zero score delta is
    emitted in this case. -/
theorem echo_already_responded_counterexample :
    handleEmoteEchoAction echoDefEx [] echoRespondedStateEx echoPlayerEx
        "wave" 500 = (true, echoRespondedStateEx, []) := by
  decide

/-! ## Sequence/Relay mini-game (`prop_relay_bench`) -/

/-- Runtime state of the sequence/relay game
    (`createMiniGameRuntime`, branch `prop_relay_bench`). -/
structure RelayState where
  phase : String
  promptIndex : ℕ
  prompt : String
  streak : ℤ
  combo : ℤ
  progress : ℚ
  participants : List String
  deadlineAt : ℤ
  lastSuccessAt : ℤ
  cycle : ℤ
  awardedMilestones : List ℤ
  deriving DecidableEq, Repr

/-- `createMiniGameRuntime(gameDef, now)`, branch `prop_relay_bench`. -/
def createRelayRuntime (gameDef : GameDef) (now : ℤ) : RelayState :=
  { phase := "active"
    promptIndex := 0
    prompt := strOr (gameDef.sequence.get? 0) "pickup"
    streak := 0
    combo := 0
    progress := 0
    participants := []
    deadlineAt := now + numOr gameDef.stepWindowMs 2400
    lastSuccessAt := now
    cycle := 1
    awardedMilestones := [] }

/-- The `expected` action of `handlePropRelayAction`:
    `sequence[gameState.promptIndex] || sequence[0] || "pickup"`. -/
def relayExpected (sequence : List String) (promptIndex : ℕ) : String :=
  strOr (sequence.get? promptIndex) (strOr (sequence.get? 0) "pickup")

/-- The milestone `for` loop inside the completion branch of
    `handlePropRelayAction` (markers come from `milestone.streak`). -/
def relayMilestoneFold (gameDef : GameDef) (roomPlayers : List Player)
    (cycle streak : ℤ) :
    List Milestone → List ℤ → List ℤ × List Event
  | [], awarded => (awarded, [])
  | m :: rest, awarded =>
      if m.marker = 0 ∨ streak < m.marker ∨ m.marker ∈ awarded then
        relayMilestoneFold gameDef roomPlayers cycle streak rest awarded
      else
        let rewardPlayers :=
          roomPlayers.filter (fun p => p.zoneId = some gameDef.zoneId)
        let evs :=
          rewardPlayers.map (fun rp =>
            Event.awardCall rp.id gameDef.id
              ("cycle:" ++ toString cycle ++ ":streak:" ++ toString m.marker ++
                ":player:" ++ rp.id)
              m.stars m.xp)
        let r := relayMilestoneFold gameDef roomPlayers cycle streak rest
          (m.marker :: awarded)
        (r.1, evs ++ r.2)

/-- `handlePropRelayAction(roomId, gameDef, gameState, player, action, now)`.
    Returns (consumed, next state, emitted events / recorded effect
    calls, in source order). -/
def handlePropRelayAction (gameDef : GameDef) (roomPlayers : List Player)
    (st : RelayState) (player : Player) (action : String) (now : ℤ) :
    Bool × RelayState × List Event :=
  if player.zoneId ≠ some gameDef.zoneId then (false, st, [])
  else
    let sequence := gameDef.sequence
    let expected := relayExpected sequence st.promptIndex
    if st.deadlineAt < now ∨ action ≠ expected then
      let streak1 := max 0 (st.streak - 1)
      (true,
        { st with
          streak := streak1
          combo := streak1
          promptIndex := 0
          prompt := strOr (sequence.get? 0) "pickup"
          progress := 0
          deadlineAt := now + numOr gameDef.stepWindowMs 2400 },
        [.actionResult gameDef.id player.id action false 0 streak1])
    else
      let st1 : RelayState := { st with
        participants := addUnique st.participants player.id
        lastSuccessAt := now
        promptIndex := st.promptIndex + 1
        progress := ((st.promptIndex + 1 : ℕ) : ℚ) / ((max 1 sequence.length : ℕ) : ℚ)
        deadlineAt := now + numOr gameDef.stepWindowMs 2400 }
      if sequence.length ≤ st1.promptIndex then
        let streak1 := st1.streak + 1
        let st2 : RelayState := { st1 with
          promptIndex := 0
          progress := 1
          cycle := st1.cycle + 1
          streak := streak1
          combo := streak1 }
        let m := relayMilestoneFold gameDef roomPlayers st2.cycle st2.streak
          gameDef.rewardMilestones st2.awardedMilestones
        let st3 : RelayState := { st2 with
          awardedMilestones := m.1
          prompt := relayExpected sequence st2.promptIndex }
        (true, st3,
          .questDeltaCall player.userId "minigame_completion" 1
              (some gameDef.id) none ::
            .questDeltaCall player.userId "minigame_combo" 1 (some gameDef.id)
              (some streak1) ::
            m.2 ++
            [.actionResult gameDef.id player.id action true 2 st3.combo,
             .questDeltaCall player.userId "minigame_participation" 1
               (some gameDef.id) none])
      else
        let st2 : RelayState := { st1 with
          prompt := relayExpected sequence st1.promptIndex }
        (true, st2,
          [.actionResult gameDef.id player.id action true 1 st2.combo,
           .questDeltaCall player.userId "minigame_participation" 1
             (some gameDef.id) none])

/-- Sequential application of `handlePropRelayAction` to a list of
    (action, timestamp) pairs, concatenating the event traces. -/
def relayRun (gameDef : GameDef) (roomPlayers : List Player) (player : Player) :
    RelayState → List (String × ℤ) → RelayState × List Event
  | st, [] => (st, [])
  | st, (a, t) :: rest =>
      let r := handlePropRelayAction gameDef roomPlayers st player a t
      let r2 := relayRun gameDef roomPlayers player r.2.1 rest
      (r2.1, r.2.2 ++ r2.2)

/-- The step-deadline discipline: each action arrives no later than the
    deadline current at its step (the deadline is re-armed to
    `now + stepWindow` by each step). -/
def relayTimesValid (stepWindow : ℤ) : ℤ → List ℤ → Prop
  | _, [] => True
  | deadline, t :: ts => t ≤ deadline ∧ relayTimesValid stepWindow (t + stepWindow) ts

theorem relay_step_fail (gameDef : GameDef) (roomPlayers : List Player)
    (st : RelayState) (player : Player) (action : String) (now : ℤ)
    (hz : player.zoneId = some gameDef.zoneId)
    (hcond : st.deadlineAt < now ∨
      action ≠ relayExpected gameDef.sequence st.promptIndex) :
    handlePropRelayAction gameDef roomPlayers st player action now =
      (true,
        { st with
          streak := max 0 (st.streak - 1)
          combo := max 0 (st.streak - 1)
          promptIndex := 0
          prompt := strOr (gameDef.sequence.get? 0) "pickup"
          progress := 0
          deadlineAt := now + numOr gameDef.stepWindowMs 2400 },
        [.actionResult gameDef.id player.id action false 0
          (max 0 (st.streak - 1))]) := by
  have hz' : ¬ player.zoneId ≠ some gameDef.zoneId := by simp [hz]
  simp only [handlePropRelayAction, if_neg hz', if_pos hcond]

theorem relay_step_mid (gameDef : GameDef) (roomPlayers : List Player)
    (st : RelayState) (player : Player) (action : String) (now : ℤ)
    (hz : player.zoneId = some gameDef.zoneId)
    (ht : ¬ st.deadlineAt < now)
    (ha : action = relayExpected gameDef.sequence st.promptIndex)
    (hlt : st.promptIndex + 1 < gameDef.sequence.length) :
    (handlePropRelayAction gameDef roomPlayers st player action now).1 = true ∧
    (handlePropRelayAction gameDef roomPlayers st player action now).2.1.streak
        = st.streak ∧
    (handlePropRelayAction gameDef roomPlayers st player action
        now).2.1.promptIndex = st.promptIndex + 1 ∧
    (handlePropRelayAction gameDef roomPlayers st player action
        now).2.1.deadlineAt = now + numOr gameDef.stepWindowMs 2400 ∧
    (handlePropRelayAction gameDef roomPlayers st player action now).2.2 =
      [.actionResult gameDef.id player.id action true 1 st.combo,
       .questDeltaCall player.userId "minigame_participation" 1
         (some gameDef.id) none] := by
  have hz' : ¬ player.zoneId ≠ some gameDef.zoneId := by simp [hz]
  have hcond : ¬ (st.deadlineAt < now ∨
      action ≠ relayExpected gameDef.sequence st.promptIndex) := by
    simp [ht, ha]
  simp only [handlePropRelayAction, if_neg hz', if_neg hcond]
  split_ifs with h
  · simp only [] at h
    omega
  · exact ⟨rfl, rfl, rfl, rfl, rfl⟩

theorem relay_step_complete (gameDef : GameDef) (roomPlayers : List Player)
    (st : RelayState) (player : Player) (action : String) (now : ℤ)
    (hz : player.zoneId = some gameDef.zoneId)
    (ht : ¬ st.deadlineAt < now)
    (ha : action = relayExpected gameDef.sequence st.promptIndex)
    (hge : gameDef.sequence.length ≤ st.promptIndex + 1) :
    (handlePropRelayAction gameDef roomPlayers st player action now).1 = true ∧
    (handlePropRelayAction gameDef roomPlayers st player action now).2.1.streak
        = st.streak + 1 ∧
    (handlePropRelayAction gameDef roomPlayers st player action
        now).2.1.promptIndex = 0 ∧
    Event.actionResult gameDef.id player.id action true 2 (st.streak + 1) ∈
      (handlePropRelayAction gameDef roomPlayers st player action now).2.2 := by
  have hz' : ¬ player.zoneId ≠ some gameDef.zoneId := by simp [hz]
  have hcond : ¬ (st.deadlineAt < now ∨
      action ≠ relayExpected gameDef.sequence st.promptIndex) := by
    simp [ht, ha]
  simp only [handlePropRelayAction, if_neg hz', if_neg hcond]
  split_ifs
  refine ⟨rfl, rfl, rfl, ?_⟩
  simp [List.mem_append]

theorem relayRun_complete_aux (gameDef : GameDef) (roomPlayers : List Player)
    (player : Player) (hz : player.zoneId = some gameDef.zoneId)
    (hne : ∀ a ∈ gameDef.sequence, a ≠ "") :
    ∀ (rest : List String) (ts : List ℤ) (st : RelayState),
      rest ≠ [] →
      gameDef.sequence.drop st.promptIndex = rest →
      ts.length = rest.length →
      relayTimesValid (numOr gameDef.stepWindowMs 2400) st.deadlineAt ts →
      (relayRun gameDef roomPlayers player st (rest.zip ts)).1.streak
          = st.streak + 1 ∧
        (relayRun gameDef roomPlayers player st (rest.zip ts)).1.promptIndex
          = 0 := by
  intro rest
  induction rest with
  | nil => intro ts st hnil; exact absurd rfl hnil
  | cons a rest' ih =>
      intro ts st _ hdrop hlen hvalid
      match ts, hlen with
      | t :: ts', hlen =>
      have hget : gameDef.sequence.get? st.promptIndex = some a := by
        have h0 := List.getElem?_drop gameDef.sequence st.promptIndex 0
        simp only [hdrop, Nat.add_zero, List.getElem?_cons_zero] at h0
        simp [List.get?_eq_getElem?, ← h0]
      have hlt : st.promptIndex < gameDef.sequence.length :=
        (List.get?_eq_some.mp hget).1
      have hgeta : gameDef.sequence.get ⟨st.promptIndex, hlt⟩ = a := by
        rw [List.get?_eq_get hlt] at hget
        exact Option.some_injective _ hget
      have hane : a ≠ "" := by
        refine hne a ?_
        rw [← hgeta]
        exact List.get_mem _ _ hlt
      have hexp : relayExpected gameDef.sequence st.promptIndex = a := by
        unfold relayExpected
        rw [hget]
        simp [strOr, hane]
      have hdrop' : gameDef.sequence.drop (st.promptIndex + 1) = rest' := by
        have hdd : (gameDef.sequence.drop st.promptIndex).drop 1 = rest' := by
          simp [hdrop]
        simpa [List.drop_drop] using hdd
      have ht : t ≤ st.deadlineAt := hvalid.1
      have hvalid' : relayTimesValid (numOr gameDef.stepWindowMs 2400)
          (t + numOr gameDef.stepWindowMs 2400) ts' := hvalid.2
      have hzip : (a :: rest').zip (t :: ts') = (a, t) :: rest'.zip ts' := rfl
      rw [hzip]
      cases rest' with
      | nil =>
          have hts' : ts' = [] := List.length_eq_zero.mp (by simpa using hlen)
          subst hts'
          have hge : gameDef.sequence.length ≤ st.promptIndex + 1 :=
            List.drop_eq_nil_iff.mp hdrop'
          have hc := relay_step_complete gameDef roomPlayers st player a t hz
            (by omega) hexp.symm hge
          simpa [relayRun] using ⟨hc.2.1, hc.2.2.1⟩
      | cons b rest'' =>
          have hlt' : st.promptIndex + 1 < gameDef.sequence.length := by
            by_contra hcon
            have : gameDef.sequence.drop (st.promptIndex + 1) = [] :=
              List.drop_eq_nil_iff.mpr (by omega)
            simp [hdrop'] at this
          have hm := relay_step_mid gameDef roomPlayers st player a t hz
            (by omega) hexp.symm hlt'
          have hrec := ih ts'
            (handlePropRelayAction gameDef roomPlayers st player a t).2.1
            (by simp)
            (by rw [hm.2.2.1]; exact hdrop')
            (by simpa using hlen)
            (by rw [hm.2.2.2.1]; exact hvalid')
          simp only [relayRun]
          exact ⟨by rw [hrec.1, hm.2.1], hrec.2⟩

/-- **C6.** In the sequence/relay mini-game, for a player in the owning
    zone: (a) sending the correct full sequence in order, each step no
    later than its (re-armed) step deadline, increments the streak by
    exactly 1 and resets the index to 0; (b) a correct mid-sequence
    step leaves the streak unchanged and emits a success result with
    score delta 1; (c) the completing step increments the streak and
    emits a success result with score delta 2 — higher than the
    mid-sequence delta; (d) any mismatched action or action after the
    step deadline resets the index to 0 and decrements the streak by 1,
    floored at 0, emitting a failure result with zero score delta. -/
theorem handlePropRelayAction_spec (gameDef : GameDef)
    (roomPlayers : List Player) (player : Player)
    (hz : player.zoneId = some gameDef.zoneId)
    (hne : ∀ a ∈ gameDef.sequence, a ≠ "") :
    (∀ (ts : List ℤ) (st : RelayState), gameDef.sequence ≠ [] →
      st.promptIndex = 0 → ts.length = gameDef.sequence.length →
      relayTimesValid (numOr gameDef.stepWindowMs 2400) st.deadlineAt ts →
      (relayRun gameDef roomPlayers player st
          (gameDef.sequence.zip ts)).1.streak = st.streak + 1 ∧
        (relayRun gameDef roomPlayers player st
          (gameDef.sequence.zip ts)).1.promptIndex = 0) ∧
    (∀ (st : RelayState) (action : String) (now : ℤ),
      ¬ st.deadlineAt < now →
      action = relayExpected gameDef.sequence st.promptIndex →
      st.promptIndex + 1 < gameDef.sequence.length →
      (handlePropRelayAction gameDef roomPlayers st player action
          now).2.1.streak = st.streak ∧
        (handlePropRelayAction gameDef roomPlayers st player action now).2.2 =
          [Event.actionResult gameDef.id player.id action true 1 st.combo,
           Event.questDeltaCall player.userId "minigame_participation" 1
             (some gameDef.id) none]) ∧
    (∀ (st : RelayState) (action : String) (now : ℤ),
      ¬ st.deadlineAt < now →
      action = relayExpected gameDef.sequence st.promptIndex →
      gameDef.sequence.length ≤ st.promptIndex + 1 →
      (handlePropRelayAction gameDef roomPlayers st player action
          now).2.1.streak = st.streak + 1 ∧
        (handlePropRelayAction gameDef roomPlayers st player action
          now).2.1.promptIndex = 0 ∧
        Event.actionResult gameDef.id player.id action true 2 (st.streak + 1)
          ∈ (handlePropRelayAction gameDef roomPlayers st player action
            now).2.2) ∧
    (∀ (st : RelayState) (action : String) (now : ℤ),
      st.deadlineAt < now ∨
        action ≠ relayExpected gameDef.sequence st.promptIndex →
      (handlePropRelayAction gameDef roomPlayers st player action
          now).2.1.streak = max 0 (st.streak - 1) ∧
        (handlePropRelayAction gameDef roomPlayers st player action
          now).2.1.promptIndex = 0 ∧
        (handlePropRelayAction gameDef roomPlayers st player action now).2.2 =
          [Event.actionResult gameDef.id player.id action false 0
            (max 0 (st.streak - 1))]) := by
  refine ⟨?_, ?_, ?_, ?_⟩
  · intro ts st hseq hidx hlen hvalid
    have h := relayRun_complete_aux gameDef roomPlayers player hz hne
      gameDef.sequence ts st hseq (by rw [hidx]; exact List.drop_zero _)
      hlen hvalid
    exact h
  · intro st action now ht ha hlt
    have h := relay_step_mid gameDef roomPlayers st player action now hz ht
      ha hlt
    exact ⟨h.2.1, h.2.2.2.2⟩
  · intro st action now ht ha hge
    have h := relay_step_complete gameDef roomPlayers st player action now hz
      ht ha hge
    exact h.2
  · intro st action now hcond
    rw [relay_step_fail gameDef roomPlayers st player action now hz hcond]
    exact ⟨rfl, rfl, rfl⟩

/-- A concrete relay game definition with the spec's example 3-step
    sequence and the source's default step window. -/
def relayDefEx : GameDef :=
  { id := "prop_relay_bench"
    zoneId := "workshop"
    promptOrder := []
    responseWindowMs := none
    promptEveryMs := none
    sequence := ["pickup", "openlid", "jump"]
    stepWindowMs := none
    idleDecayMs := none
    rewardMilestones := [] }

/-- Concrete player inside the relay zone. -/
def relayPlayerEx : Player :=
  { id := "p2", userId := none, roomId := "studio-1", x := 500, y := 500,
    zoneId := some "workshop" }

/-- Closed instantiation of `handlePropRelayAction_spec`: running the
    full sequence pickup → openlid → jump at times 100, 200, 300 from
    the freshly created runtime increments the streak to 1 and resets
    the index to 0. -/
theorem handlePropRelayAction_spec_witness :
    (relayRun relayDefEx [] relayPlayerEx (createRelayRuntime relayDefEx 0)
        (relayDefEx.sequence.zip [100, 200, 300])).1.streak =
        (createRelayRuntime relayDefEx 0).streak + 1 ∧
      (relayRun relayDefEx [] relayPlayerEx (createRelayRuntime relayDefEx 0)
        (relayDefEx.sequence.zip [100, 200, 300])).1.promptIndex = 0 :=
  (handlePropRelayAction_spec relayDefEx [] relayPlayerEx (by decide)
      (by decide)).1
    [100, 200, 300] (createRelayRuntime relayDefEx 0) (by decide) (by decide)
    (by decide)
    (by simp [relayTimesValid, createRelayRuntime, relayDefEx, numOr])

/-! ## Persistence store (`server/src/data/store.js`)

Only the rows and columns the claims read are modelled; generated ids
and ISO timestamps (`uuidv4()`, `nowIso()`, `updatedAt`, …) and the
debounced file flush are write-only bookkeeping and are dropped. JS
array `.push` appends at the end; first-match `.find` mutation is
modelled by first-match replacement. -/

/-- A `profiles` row (the columns the claims read). -/
structure Profile where
  userId : String
  selectedAvatar : String
  starsBalance : ℤ
  level : ℤ
  xpTotal : ℤ
  deriving DecidableEq, Repr

/-- A `currencyLedger` row. -/
structure LedgerEntry where
  userId : String
  delta : ℤ
  source : String
  sourceRef : String
  balanceAfter : ℤ
  deriving DecidableEq, Repr

/-- A `userQuests` row (the columns the claims read). -/
structure QuestRow where
  userId : String
  questId : String
  status : String
  value : ℤ
  target : ℤ
  cycle : String
  deriving DecidableEq, Repr

/-- The `FileBackedStore` data (the tables the claims touch;
    `users`, `refreshTokens` and `abuseReports` are untouched by the
    modelled operations). `grantHistory` and `userUnlocks` rows are
    (userId, key) pairs. -/
structure Store where
  profiles : List Profile
  userQuests : List QuestRow
  userUnlocks : List (String × String)
  currencyLedger : List LedgerEntry
  grantHistory : List (String × String)
  deriving DecidableEq, Repr

/-- `getProfileByUserId(userId)`. -/
def getProfileByUserId (s : Store) (u : String) : Option Profile :=
  s.profiles.find? (fun p => p.userId = u)

/-- In-place mutation of the first profile row matching a user id. -/
def replaceFirstProfile (f : Profile → Profile) (u : String) :
    List Profile → List Profile
  | [] => []
  | p :: rest =>
      if p.userId = u then f p :: rest
      else p :: replaceFirstProfile f u rest

/-- `hasGrantKey(userId, grantKey)`. -/
def hasGrantKey (s : Store) (u k : String) : Bool :=
  s.grantHistory.any (fun e => e.1 = u ∧ e.2 = k)

/-- `rememberGrantKey(userId, grantKey)`: `false` (store unchanged)
    when the key is already present, else record it and return
    `true`. -/
def rememberGrantKey (s : Store) (u k : String) : Bool × Store :=
  if hasGrantKey s u k then (false, s)
  else (true, { s with grantHistory := s.grantHistory ++ [(u, k)] })

/-- `appendCurrencyLedger({userId, delta, source, sourceRef})`:
    `null` when the profile is missing; otherwise clamp the balance at
    zero from below, update the profile, append a ledger row and
    return the new balance. -/
def appendCurrencyLedger (s : Store) (u : String) (delta : ℤ)
    (source sourceRef : String) : Option ℤ × Store :=
  match getProfileByUserId s u with
  | none => (none, s)
  | some p =>
      let newBal := clampMin (p.starsBalance + delta) 0
      (some newBal,
        { s with
          profiles := replaceFirstProfile
            (fun q => { q with starsBalance := newBal }) u s.profiles
          currencyLedger := s.currencyLedger ++
            [⟨u, delta, source, sourceRef, newBal⟩] })

/-- `addXp(userId, xpDelta)`: clamp total XP at zero from below and
    derive the level (`Math.floor` agrees with `Int` division on the
    non-negative clamped total). -/
def addXp (s : Store) (u : String) (xpDelta : ℤ) : Store :=
  match getProfileByUserId s u with
  | none => s
  | some p =>
      let newXp := clampMin (p.xpTotal + xpDelta) 0
      { s with
        profiles := replaceFirstProfile
          (fun q => { q with xpTotal := newXp, level := max 1 (1 + newXp / 220) })
          u s.profiles }

/-- `hasUnlock(userId, unlockId)`. -/
def hasUnlock (s : Store) (u unlockId : String) : Bool :=
  s.userUnlocks.any (fun r => r.1 = u ∧ r.2 = unlockId)

/-- `grantUnlock(userId, unlockId, source)`: `null` when already
    owned, else append the unlock row. -/
def grantUnlock (s : Store) (u unlockId : String) : Bool × Store :=
  if hasUnlock s u unlockId then (false, s)
  else (true, { s with userUnlocks := s.userUnlocks ++ [(u, unlockId)] })

/-! ## Unlock track (`server/src/index.js` + `game/content.js`) -/

/-- One reward inside an `UNLOCK_TRACK` tier. -/
inductive TrackReward where
  | stars (amount : ℤ)
  | unlock (unlockId : String)
  deriving DecidableEq, Repr

/-- An `UNLOCK_TRACK` tier. -/
structure TrackTier where
  tier : ℕ
  xpThreshold : ℤ
  rewards : List TrackReward
  deriving DecidableEq, Repr

/-- `UNLOCK_TRACK` from `server/src/game/content.js`. -/
def UNLOCK_TRACK : List TrackTier :=
  [⟨1, 120, [.unlock "ring_sunset", .stars 30]⟩,
   ⟨2, 280, [.unlock "badge_wave", .stars 45]⟩,
   ⟨3, 460, [.unlock "ring_mint", .stars 60]⟩,
   ⟨4, 700, [.unlock "badge_social", .stars 75]⟩]

/-- `UNLOCK_DEFS` reduced to (id, category) for
    `getUnlockDefById(...)?.category || "unknown"`. -/
def getUnlockCategory (unlockId : String) : String :=
  match ([("ring_sunset", "ring_style"), ("ring_mint", "ring_style"),
      ("badge_wave", "emote_badge"),
      ("badge_social", "emote_badge")].lookup unlockId) with
  | some c => c
  | none => "unknown"

/-- One reward inside the tier loop of `applyUnlockTrackRewards`. -/
def trackRewardApply (u tierRef : String) (acc : Store × List Event)
    (reward : TrackReward) : Store × List Event :=
  match reward with
  | .stars amount =>
      let r := appendCurrencyLedger acc.1 u amount "unlock_track" tierRef
      match r.1 with
      | some bal =>
          (r.2, acc.2 ++ [Event.currencyGrant u amount bal "unlock_track"])
      | none => (r.2, acc.2)
  | .unlock unlockId =>
      let r := grantUnlock acc.1 u unlockId
      if r.1 then
        (r.2, acc.2 ++ [Event.unlockGrant u unlockId
          (getUnlockCategory unlockId)])
      else (r.2, acc.2)

/-- One tier of `applyUnlockTrackRewards`: skip below the XP
    threshold, gate on the `unlock-track:<tier>` grant key, then apply
    each reward. `xpTotal` is read once from the profile fetched at
    entry (the loop never changes it). -/
def trackTierApply (u : String) (xpTotal : ℤ) (acc : Store × List Event)
    (tier : TrackTier) : Store × List Event :=
  if xpTotal < tier.xpThreshold then acc
  else
    let r := rememberGrantKey acc.1 u ("unlock-track:" ++ toString tier.tier)
    if r.1 = false then (r.2, acc.2)
    else tier.rewards.foldl (trackRewardApply u (toString tier.tier)) (r.2, acc.2)

/-- `applyUnlockTrackRewards(userId)`. -/
def applyUnlockTrackRewards (s : Store) (u : String) : Store × List Event :=
  match getProfileByUserId s u with
  | none => (s, [])
  | some profile =>
      UNLOCK_TRACK.foldl (trackTierApply u profile.xpTotal) (s, [])

/-- `awardMiniGameReward(player, gameId, sourceRef, stars, xp)` from
    `server/src/index.js` (`econ` is `FEATURES.economy_v1`): no-op
    without a linked account; idempotency-gated on the
    `minigame:<gameId>:<sourceRef>` grant key; then currency, XP,
    unlock-track rewards and the `minigame_reward` message. -/
def awardMiniGameReward (econ : Bool) (s : Store) (player : Player)
    (gameId sourceRef : String) (stars xp : ℤ) : Store × List Event :=
  match player.userId with
  | none => (s, [])
  | some u =>
      let r := rememberGrantKey s u ("minigame:" ++ gameId ++ ":" ++ sourceRef)
      if r.1 = false then (s, [])
      else
        let a :=
          if econ && decide (0 < stars) then
            appendCurrencyLedger r.2 u stars "minigame"
              (gameId ++ ":" ++ sourceRef)
          else (none, r.2)
        let econEvents : List Event :=
          match a.1 with
          | some bal => [Event.currencyGrant u stars bal "minigame"]
          | none => []
        let s2 := if decide (0 < xp) then addXp a.2 u xp else a.2
        let t := applyUnlockTrackRewards s2 u
        let prof := getProfileByUserId t.1 u
        let bal : Option ℤ :=
          match a.1 with
          | some b => some b
          | none => prof.map Profile.starsBalance
        (t.1, econEvents ++ t.2 ++
          [Event.minigameRewardMsg u gameId player.id stars xp sourceRef bal
            (prof.map Profile.level) (prof.map Profile.xpTotal)])

/-! ## Quest bridge (`applyQuestDelta` loop body and reward grant) -/

/-- `findQuestState(userId, questId)`. -/
def findQuestState (s : Store) (u qid : String) : Option QuestRow :=
  s.userQuests.find? (fun r => r.userId = u ∧ r.questId = qid)

/-- In-place `Object.assign` on the first matching quest row. -/
def replaceFirstQuest (row : QuestRow) (u qid : String) :
    List QuestRow → List QuestRow
  | [] => []
  | r :: rest =>
      if r.userId = u ∧ r.questId = qid then row :: rest
      else r :: replaceFirstQuest row u qid rest

/-- `upsertQuestState(nextState)`: overwrite the existing row or append. -/
def upsertQuestState (s : Store) (row : QuestRow) : Store :=
  match findQuestState s row.userId row.questId with
  | none => { s with userQuests := s.userQuests ++ [row] }
  | some _ =>
      { s with userQuests :=
          replaceFirstQuest row row.userId row.questId s.userQuests }

/-- The source's generic `clamp` at integer arguments (quest values). -/
def clampInt (value lo hi : ℤ) : ℤ := max lo (min hi value)

/-- An active quest as seen by the `applyQuestDelta` loop: id, target,
    cycle stamp and configured rewards (type/config filters already
    applied). -/
structure ActiveQuest where
  id : String
  target : ℤ
  cycle : String
  rewardStars : ℤ
  rewardXp : ℤ
  deriving DecidableEq, Repr

/-- `applyQuestRewardIfNeeded({userId, questDef, questState})`:
    gated on the `quest:<id>:<cycle>:completed` grant key, then stars,
    XP and unlock-track rewards. -/
def applyQuestRewardIfNeeded (econ : Bool) (s : Store) (u : String)
    (q : ActiveQuest) : Store × List Event :=
  let r := rememberGrantKey s u ("quest:" ++ q.id ++ ":" ++ q.cycle ++
    ":completed")
  if r.1 = false then (s, [])
  else
    let a :=
      if econ && decide (0 < q.rewardStars) then
        appendCurrencyLedger r.2 u q.rewardStars "quest" q.id
      else (none, r.2)
    let evs : List Event :=
      match a.1 with
      | some bal => [Event.currencyGrant u q.rewardStars bal "quest"]
      | none => []
    let s2 := if decide (0 < q.rewardXp) then addXp a.2 u q.rewardXp else a.2
    let t := applyUnlockTrackRewards s2 u
    (t.1, evs ++ t.2)

/-- The body of the `applyQuestDelta` loop for one matched active
    quest (source lines after the type/config filters): skip when the
    row is missing or already completed/claimed; otherwise clamp the
    progress, flip the status on reaching the target, emit
    `quest_progress`, and on completion run the idempotent reward
    grant (whose grant key uses the row's cycle stamp). -/
def applyQuestDeltaCore (econ : Bool) (s : Store) (u : String)
    (q : ActiveQuest) (delta : ℤ) : Store × List Event :=
  match findQuestState s u q.id with
  | none => (s, [])
  | some row =>
      if row.status = "completed" ∨ row.status = "claimed" then (s, [])
      else
        let nextValue := clampInt (row.value + delta) 0 q.target
        let completed := decide (q.target ≤ nextValue)
        let nextRow : QuestRow := { row with
          value := nextValue
          status := if completed then "completed" else "active" }
        let s1 := upsertQuestState s nextRow
        let evs := [Event.questProgress u q.id nextValue completed]
        if completed then
          let r := applyQuestRewardIfNeeded econ s1 u { q with cycle := row.cycle }
          (r.1, evs ++ r.2)
        else (s1, evs)

/-! ## Store lemmas -/

theorem find?_replaceFirstProfile (f : Profile → Profile) (u : String)
    (hf : ∀ q, (f q).userId = q.userId) (l : List Profile) :
    (replaceFirstProfile f u l).find? (fun p => p.userId = u) =
      (l.find? (fun p => p.userId = u)).map f := by
  induction l with
  | nil => rfl
  | cons p rest ih =>
      by_cases hp : p.userId = u
      · simp [replaceFirstProfile, hp, List.find?_cons, hf]
      · simp [replaceFirstProfile, hp, List.find?_cons, ih]

theorem grantHistory_appendCurrencyLedger (s : Store) (u : String) (delta : ℤ)
    (source sourceRef : String) :
    (appendCurrencyLedger s u delta source sourceRef).2.grantHistory =
      s.grantHistory := by
  unfold appendCurrencyLedger
  cases getProfileByUserId s u <;> rfl

theorem grantHistory_addXp (s : Store) (u : String) (xpDelta : ℤ) :
    (addXp s u xpDelta).grantHistory = s.grantHistory := by
  unfold addXp
  cases getProfileByUserId s u <;> rfl

theorem grantHistory_grantUnlock (s : Store) (u unlockId : String) :
    (grantUnlock s u unlockId).2.grantHistory = s.grantHistory := by
  unfold grantUnlock
  split_ifs <;> rfl

theorem grantHistory_trackRewardApply (u tierRef : String)
    (acc : Store × List Event) (reward : TrackReward) :
    (trackRewardApply u tierRef acc reward).1.grantHistory =
      acc.1.grantHistory := by
  cases reward with
  | stars amount =>
      simp only [trackRewardApply]
      have h := grantHistory_appendCurrencyLedger acc.1 u amount "unlock_track"
        tierRef
      cases hv : (appendCurrencyLedger acc.1 u amount "unlock_track" tierRef).1
        <;> simp [hv, h]
  | unlock unlockId =>
      simp only [trackRewardApply]
      have h := grantHistory_grantUnlock acc.1 u unlockId
      split_ifs <;> simp [h]

theorem grantHistory_trackRewardFold (u tierRef : String)
    (rewards : List TrackReward) (acc : Store × List Event) :
    (rewards.foldl (trackRewardApply u tierRef) acc).1.grantHistory =
      acc.1.grantHistory := by
  induction rewards generalizing acc with
  | nil => rfl
  | cons r rest ih =>
      simp only [List.foldl]
      rw [ih, grantHistory_trackRewardApply]

theorem grantHistory_prefix_trackTierApply (u : String) (xpTotal : ℤ)
    (acc : Store × List Event) (tier : TrackTier) :
    acc.1.grantHistory <+:
      (trackTierApply u xpTotal acc tier).1.grantHistory := by
  unfold trackTierApply
  split_ifs with h1
  · exact List.prefix_refl _
  · unfold rememberGrantKey
    split_ifs with h2
    · simp
    · show acc.1.grantHistory <+:
        (List.foldl (trackRewardApply u (toString tier.tier))
          ({ acc.1 with grantHistory := acc.1.grantHistory ++
            [(u, "unlock-track:" ++ toString tier.tier)] }, acc.2)
          tier.rewards).1.grantHistory
      rw [grantHistory_trackRewardFold]
      simp

theorem grantHistory_prefix_applyUnlockTrackRewards (s : Store) (u : String) :
    s.grantHistory <+: (applyUnlockTrackRewards s u).1.grantHistory := by
  unfold applyUnlockTrackRewards
  cases hp : getProfileByUserId s u with
  | none => exact List.prefix_refl _
  | some profile =>
      have hgen : ∀ (tiers : List TrackTier) (acc : Store × List Event),
          acc.1.grantHistory <+:
            (tiers.foldl (trackTierApply u profile.xpTotal) acc).1.grantHistory := by
        intro tiers
        induction tiers with
        | nil => intro acc; exact List.prefix_refl _
        | cons t rest ih =>
            intro acc
            exact (grantHistory_prefix_trackTierApply u profile.xpTotal acc
              t).trans (ih _)
      exact hgen UNLOCK_TRACK (s, [])

theorem hasGrantKey_mono {g g' : List (String × String)} (u k : String)
    (hpre : g <+: g')
    (h : g.any (fun e => e.1 = u ∧ e.2 = k) = true) :
    g'.any (fun e => e.1 = u ∧ e.2 = k) = true := by
  rw [List.any_eq_true] at h ⊢
  obtain ⟨e, he, hek⟩ := h
  exact ⟨e, hpre.subset he, hek⟩

theorem applyUnlockTrackRewards_noop (s : Store) (u : String) (p : Profile)
    (hp : getProfileByUserId s u = some p) (hxp : p.xpTotal < 120) :
    applyUnlockTrackRewards s u = (s, []) := by
  unfold applyUnlockTrackRewards
  rw [hp]
  simp only [UNLOCK_TRACK, List.foldl, trackTierApply]
  rw [if_pos (show p.xpTotal < (120 : ℤ) by omega),
    if_pos (show p.xpTotal < (280 : ℤ) by omega),
    if_pos (show p.xpTotal < (460 : ℤ) by omega),
    if_pos (show p.xpTotal < (700 : ℤ) by omega)]

theorem clampMin_of_nonneg {v : ℤ} (h : 0 ≤ v) : clampMin v 0 = v := by
  simp only [clampMin, if_neg (not_lt.mpr h)]

theorem getProfile_appendCurrencyLedger (s : Store) (u : String) (delta : ℤ)
    (src ref : String) (p : Profile) (h : getProfileByUserId s u = some p) :
    getProfileByUserId (appendCurrencyLedger s u delta src ref).2 u =
      some { p with starsBalance := clampMin (p.starsBalance + delta) 0 } := by
  simp only [appendCurrencyLedger, h]
  show (replaceFirstProfile
      (fun q => { q with starsBalance := clampMin (p.starsBalance + delta) 0 })
      u s.profiles).find? (fun q => q.userId = u) = _
  rw [find?_replaceFirstProfile
    (fun q => { q with starsBalance := clampMin (p.starsBalance + delta) 0 })
    u (fun q => rfl)]
  unfold getProfileByUserId at h
  rw [h]
  rfl

theorem currencyLedger_addXp (s : Store) (u : String) (xpDelta : ℤ) :
    (addXp s u xpDelta).currencyLedger = s.currencyLedger := by
  unfold addXp
  cases getProfileByUserId s u <;> rfl

theorem getProfile_addXp (s : Store) (u : String) (xpDelta : ℤ) (p : Profile)
    (h : getProfileByUserId s u = some p) :
    getProfileByUserId (addXp s u xpDelta) u =
      some { p with
        xpTotal := clampMin (p.xpTotal + xpDelta) 0
        level := max 1 (1 + clampMin (p.xpTotal + xpDelta) 0 / 220) } := by
  simp only [addXp, h]
  show (replaceFirstProfile
      (fun q => { q with
        xpTotal := clampMin (p.xpTotal + xpDelta) 0
        level := max 1 (1 + clampMin (p.xpTotal + xpDelta) 0 / 220) })
      u s.profiles).find? (fun q => q.userId = u) = _
  rw [find?_replaceFirstProfile
    (fun q => { q with
      xpTotal := clampMin (p.xpTotal + xpDelta) 0
      level := max 1 (1 + clampMin (p.xpTotal + xpDelta) 0 / 220) })
    u (fun q => rfl)]
  unfold getProfileByUserId at h
  rw [h]
  rfl

/-- Event filter for counting `currency_grant` emissions. -/
def isCurrencyGrant : Event → Bool
  | .currencyGrant _ _ _ _ => true
  | _ => false

theorem awardMiniGameReward_first_eval
    (s : Store) (player : Player) (u : String) (p : Profile)
    (gameId sourceRef : String) (stars xp : ℤ)
    (hu : player.userId = some u)
    (hp : getProfileByUserId s u = some p)
    (hbal : 0 ≤ p.starsBalance) (hxpt : 0 ≤ p.xpTotal) (hxp : 0 ≤ xp)
    (hlt : p.xpTotal + xp < 120) (hstars : 0 < stars)
    (h0 : hasGrantKey s u ("minigame:" ++ gameId ++ ":" ++ sourceRef) = false) :
    ∃ (s' : Store) (msg : Event),
      awardMiniGameReward true s player gameId sourceRef stars xp =
        (s', [Event.currencyGrant u stars (p.starsBalance + stars) "minigame",
              msg]) ∧
      isCurrencyGrant msg = false ∧
      s'.currencyLedger = s.currencyLedger ++
        [⟨u, stars, "minigame", gameId ++ ":" ++ sourceRef,
          p.starsBalance + stars⟩] ∧
      (getProfileByUserId s' u).map Profile.starsBalance =
        some (p.starsBalance + stars) ∧
      hasGrantKey s' u ("minigame:" ++ gameId ++ ":" ++ sourceRef) = true := by
  have hnb : clampMin (p.starsBalance + stars) 0 = p.starsBalance + stars :=
    clampMin_of_nonneg (by omega)
  have hrem : rememberGrantKey s u ("minigame:" ++ gameId ++ ":" ++ sourceRef) =
      (true, { s with grantHistory :=
        s.grantHistory ++ [(u, "minigame:" ++ gameId ++ ":" ++ sourceRef)] }) := by
    simp [rememberGrantKey, h0]
  have hpK : getProfileByUserId
      { s with grantHistory :=
        s.grantHistory ++ [(u, "minigame:" ++ gameId ++ ":" ++ sourceRef)] } u =
      some p := hp
  have hap : appendCurrencyLedger
      { s with grantHistory :=
        s.grantHistory ++ [(u, "minigame:" ++ gameId ++ ":" ++ sourceRef)] }
      u stars "minigame" (gameId ++ ":" ++ sourceRef) =
      (some (p.starsBalance + stars),
        { s with
          grantHistory :=
            s.grantHistory ++ [(u, "minigame:" ++ gameId ++ ":" ++ sourceRef)]
          profiles := replaceFirstProfile
            (fun q => { q with starsBalance := p.starsBalance + stars }) u
            s.profiles
          currencyLedger := s.currencyLedger ++
            [⟨u, stars, "minigame", gameId ++ ":" ++ sourceRef,
              p.starsBalance + stars⟩] }) := by
    simp only [appendCurrencyLedger, hpK, hnb]
  have hpA : getProfileByUserId
      { s with
        grantHistory :=
          s.grantHistory ++ [(u, "minigame:" ++ gameId ++ ":" ++ sourceRef)]
        profiles := replaceFirstProfile
          (fun q => { q with starsBalance := p.starsBalance + stars }) u
          s.profiles
        currencyLedger := s.currencyLedger ++
          [⟨u, stars, "minigame", gameId ++ ":" ++ sourceRef,
            p.starsBalance + stars⟩] } u =
      some { p with starsBalance := p.starsBalance + stars } := by
    have h1 := getProfile_appendCurrencyLedger
      { s with grantHistory :=
        s.grantHistory ++ [(u, "minigame:" ++ gameId ++ ":" ++ sourceRef)] }
      u stars "minigame" (gameId ++ ":" ++ sourceRef) p hpK
    rw [hap] at h1
    rw [hnb] at h1
    exact h1
  have hxcl : clampMin (p.xpTotal + xp) 0 = p.xpTotal + xp :=
    clampMin_of_nonneg (by omega)
  by_cases hxp0 : 0 < xp
  · have haddXp : addXp
        { s with
          grantHistory :=
            s.grantHistory ++ [(u, "minigame:" ++ gameId ++ ":" ++ sourceRef)]
          profiles := replaceFirstProfile
            (fun q => { q with starsBalance := p.starsBalance + stars }) u
            s.profiles
          currencyLedger := s.currencyLedger ++
            [⟨u, stars, "minigame", gameId ++ ":" ++ sourceRef,
              p.starsBalance + stars⟩] } u xp =
        { s with
          grantHistory :=
            s.grantHistory ++ [(u, "minigame:" ++ gameId ++ ":" ++ sourceRef)]
          profiles := replaceFirstProfile
            (fun q => { q with
              xpTotal := p.xpTotal + xp
              level := max 1 (1 + (p.xpTotal + xp) / 220) }) u
            (replaceFirstProfile
              (fun q => { q with starsBalance := p.starsBalance + stars }) u
              s.profiles)
          currencyLedger := s.currencyLedger ++
            [⟨u, stars, "minigame", gameId ++ ":" ++ sourceRef,
              p.starsBalance + stars⟩] } := by
      simp only [addXp, hpA, hxcl]
    have hpX : getProfileByUserId
        { s with
          grantHistory :=
            s.grantHistory ++ [(u, "minigame:" ++ gameId ++ ":" ++ sourceRef)]
          profiles := replaceFirstProfile
            (fun q => { q with
              xpTotal := p.xpTotal + xp
              level := max 1 (1 + (p.xpTotal + xp) / 220) }) u
            (replaceFirstProfile
              (fun q => { q with starsBalance := p.starsBalance + stars }) u
              s.profiles)
          currencyLedger := s.currencyLedger ++
            [⟨u, stars, "minigame", gameId ++ ":" ++ sourceRef,
              p.starsBalance + stars⟩] } u =
        some { p with
          starsBalance := p.starsBalance + stars
          xpTotal := p.xpTotal + xp
          level := max 1 (1 + (p.xpTotal + xp) / 220) } := by
      have h2 := getProfile_addXp
        { s with
          grantHistory :=
            s.grantHistory ++ [(u, "minigame:" ++ gameId ++ ":" ++ sourceRef)]
          profiles := replaceFirstProfile
            (fun q => { q with starsBalance := p.starsBalance + stars }) u
            s.profiles
          currencyLedger := s.currencyLedger ++
            [⟨u, stars, "minigame", gameId ++ ":" ++ sourceRef,
              p.starsBalance + stars⟩] } u xp
        { p with starsBalance := p.starsBalance + stars } hpA
      rw [haddXp] at h2
      simp only [hxcl] at h2
      exact h2
    have hnoop : applyUnlockTrackRewards
        { s with
          grantHistory :=
            s.grantHistory ++ [(u, "minigame:" ++ gameId ++ ":" ++ sourceRef)]
          profiles := replaceFirstProfile
            (fun q => { q with
              xpTotal := p.xpTotal + xp
              level := max 1 (1 + (p.xpTotal + xp) / 220) }) u
            (replaceFirstProfile
              (fun q => { q with starsBalance := p.starsBalance + stars }) u
              s.profiles)
          currencyLedger := s.currencyLedger ++
            [⟨u, stars, "minigame", gameId ++ ":" ++ sourceRef,
              p.starsBalance + stars⟩] } u =
        ({ s with
          grantHistory :=
            s.grantHistory ++ [(u, "minigame:" ++ gameId ++ ":" ++ sourceRef)]
          profiles := replaceFirstProfile
            (fun q => { q with
              xpTotal := p.xpTotal + xp
              level := max 1 (1 + (p.xpTotal + xp) / 220) }) u
            (replaceFirstProfile
              (fun q => { q with starsBalance := p.starsBalance + stars }) u
              s.profiles)
          currencyLedger := s.currencyLedger ++
            [⟨u, stars, "minigame", gameId ++ ":" ++ sourceRef,
              p.starsBalance + stars⟩] }, []) := by
      refine applyUnlockTrackRewards_noop _ u
        { p with
          starsBalance := p.starsBalance + stars
          xpTotal := p.xpTotal + xp
          level := max 1 (1 + (p.xpTotal + xp) / 220) } hpX ?_
      show p.xpTotal + xp < 120
      omega
    refine ⟨{ s with
          grantHistory :=
            s.grantHistory ++ [(u, "minigame:" ++ gameId ++ ":" ++ sourceRef)]
          profiles := replaceFirstProfile
            (fun q => { q with
              xpTotal := p.xpTotal + xp
              level := max 1 (1 + (p.xpTotal + xp) / 220) }) u
            (replaceFirstProfile
              (fun q => { q with starsBalance := p.starsBalance + stars }) u
              s.profiles)
          currencyLedger := s.currencyLedger ++
            [⟨u, stars, "minigame", gameId ++ ":" ++ sourceRef,
              p.starsBalance + stars⟩] },
      Event.minigameRewardMsg u gameId player.id stars xp sourceRef
        (some (p.starsBalance + stars))
        (some (max 1 (1 + (p.xpTotal + xp) / 220))) (some (p.xpTotal + xp)),
      ?_, rfl, rfl, ?_, ?_⟩
    · simp only [awardMiniGameReward, hu]
      rw [hrem]
      simp only [Bool.true_and, decide_eq_true_eq, if_pos hstars, if_pos hxp0]
      rw [hap]
      simp only []
      rw [haddXp, hnoop]
      simp only [hpX]
      rfl
    · rw [hpX]
      rfl
    · simp [hasGrantKey]
  · have hnoop : applyUnlockTrackRewards
        { s with
        grantHistory :=
          s.grantHistory ++ [(u, "minigame:" ++ gameId ++ ":" ++ sourceRef)]
        profiles := replaceFirstProfile
          (fun q => { q with starsBalance := p.starsBalance + stars }) u
          s.profiles
        currencyLedger := s.currencyLedger ++
          [⟨u, stars, "minigame", gameId ++ ":" ++ sourceRef,
            p.starsBalance + stars⟩] } u =
        ({ s with
        grantHistory :=
          s.grantHistory ++ [(u, "minigame:" ++ gameId ++ ":" ++ sourceRef)]
        profiles := replaceFirstProfile
          (fun q => { q with starsBalance := p.starsBalance + stars }) u
          s.profiles
        currencyLedger := s.currencyLedger ++
          [⟨u, stars, "minigame", gameId ++ ":" ++ sourceRef,
            p.starsBalance + stars⟩] }, []) := by
      refine applyUnlockTrackRewards_noop _ u
        { p with starsBalance := p.starsBalance + stars } hpA ?_
      show p.xpTotal < 120
      omega
    refine ⟨{ s with
        grantHistory :=
          s.grantHistory ++ [(u, "minigame:" ++ gameId ++ ":" ++ sourceRef)]
        profiles := replaceFirstProfile
          (fun q => { q with starsBalance := p.starsBalance + stars }) u
          s.profiles
        currencyLedger := s.currencyLedger ++
          [⟨u, stars, "minigame", gameId ++ ":" ++ sourceRef,
            p.starsBalance + stars⟩] },
      Event.minigameRewardMsg u gameId player.id stars xp sourceRef
        (some (p.starsBalance + stars)) (some p.level) (some p.xpTotal),
      ?_, rfl, rfl, ?_, ?_⟩
    · simp only [awardMiniGameReward, hu]
      rw [hrem]
      simp only [Bool.true_and, decide_eq_true_eq, if_pos hstars, if_neg hxp0]
      rw [hap]
      simp only []
      rw [hnoop]
      simp only [hpA]
      rfl
    · rw [hpA]
      rfl
    · simp [hasGrantKey]

theorem awardMiniGameReward_already (s : Store) (player : Player) (u : String)
    (gameId sourceRef : String) (stars xp : ℤ)
    (hu : player.userId = some u)
    (h1 : hasGrantKey s u ("minigame:" ++ gameId ++ ":" ++ sourceRef) = true) :
    awardMiniGameReward true s player gameId sourceRef stars xp = (s, []) := by
  simp only [awardMiniGameReward, hu]
  have hrem : rememberGrantKey s u
      ("minigame:" ++ gameId ++ ":" ++ sourceRef) = (false, s) := by
    simp [rememberGrantKey, h1]
  rw [hrem]
  simp

/-- **C7.** Reward grants are idempotent per (account id, cause key):
    `rememberGrantKey` returns true exactly on the first call for a
    given (userId, grantKey) pair (the key is recorded, and any call
    finding the key present returns false and leaves the store
    untouched); consequently, running the mini-game reward grant path
    twice with the same (account, gameId:sourceRef) cause — under an
    enabled economy, a positive star amount, an existing profile with
    non-negative balances, and XP staying below the first unlock-track
    tier — appends exactly one currency-ledger row, raises the balance
    exactly once (by the star amount), and emits exactly one
    `currency_grant`. -/
theorem rewardGrant_idempotent :
    (∀ (s : Store) (u k : String), hasGrantKey s u k = false →
      (rememberGrantKey s u k).1 = true ∧
      hasGrantKey (rememberGrantKey s u k).2 u k = true) ∧
    (∀ (s : Store) (u k : String), hasGrantKey s u k = true →
      rememberGrantKey s u k = (false, s)) ∧
    (∀ (s : Store) (player : Player) (u : String) (p : Profile)
        (gameId sourceRef : String) (stars xp : ℤ),
      player.userId = some u →
      getProfileByUserId s u = some p →
      0 ≤ p.starsBalance → 0 ≤ p.xpTotal → 0 ≤ xp → p.xpTotal + xp < 120 →
      0 < stars →
      hasGrantKey s u ("minigame:" ++ gameId ++ ":" ++ sourceRef) = false →
      awardMiniGameReward true
          (awardMiniGameReward true s player gameId sourceRef stars xp).1
          player gameId sourceRef stars xp =
        ((awardMiniGameReward true s player gameId sourceRef stars xp).1,
          []) ∧
      (awardMiniGameReward true s player gameId sourceRef stars
          xp).1.currencyLedger.length = s.currencyLedger.length + 1 ∧
      (getProfileByUserId
          (awardMiniGameReward true s player gameId sourceRef stars xp).1
          u).map Profile.starsBalance = some (p.starsBalance + stars) ∧
      (((awardMiniGameReward true s player gameId sourceRef stars xp).2 ++
        (awardMiniGameReward true
          (awardMiniGameReward true s player gameId sourceRef stars xp).1
          player gameId sourceRef stars xp).2).filter
        isCurrencyGrant).length = 1) := by
  refine ⟨?_, ?_, ?_⟩
  · intro s u k h
    have hrem : rememberGrantKey s u k =
        (true, { s with grantHistory := s.grantHistory ++ [(u, k)] }) := by
      simp [rememberGrantKey, h]
    rw [hrem]
    exact ⟨rfl, by simp [hasGrantKey]⟩
  · intro s u k h
    simp [rememberGrantKey, h]
  · intro s player u p gameId sourceRef stars xp hu hp hbal hxpt hxp hlt
      hstars h0
    obtain ⟨s', msg, heq, hmsg, hled, hbal', hkey⟩ :=
      awardMiniGameReward_first_eval s player u p gameId sourceRef stars xp
        hu hp hbal hxpt hxp hlt hstars h0
    have h2 := awardMiniGameReward_already s' player u gameId sourceRef stars
      xp hu hkey
    refine ⟨?_, ?_, ?_, ?_⟩
    · rw [heq]
      exact h2
    · rw [heq]
      simp [hled]
    · rw [heq]
      exact hbal'
    · rw [heq]
      simp only [h2, List.append_nil]
      simp [List.filter, isCurrencyGrant, hmsg]
      cases msg <;> simp_all [isCurrencyGrant]

/-- Concrete store for the C7 witness: one profile, empty tables. -/
def storeEx : Store :=
  { profiles := [⟨"u1", "kyle", 10, 1, 0⟩], userQuests := [], userUnlocks := [],
    currencyLedger := [], grantHistory := [] }

/-- Concrete linked player for the C7 witness. -/
def awardPlayerEx : Player :=
  { id := "p7", userId := some "u1", roomId := "studio-1", x := 0, y := 0,
    zoneId := none }

/-- Closed instantiation of `rewardGrant_idempotent`: granting twice
    with the same cause yields a second no-op, one ledger append and
    one `currency_grant`. -/
theorem rewardGrant_idempotent_witness :
    awardMiniGameReward true
        (awardMiniGameReward true storeEx awardPlayerEx "g" "ref" 5 3).1
        awardPlayerEx "g" "ref" 5 3 =
      ((awardMiniGameReward true storeEx awardPlayerEx "g" "ref" 5 3).1,
        []) ∧
    (awardMiniGameReward true storeEx awardPlayerEx "g" "ref" 5
        3).1.currencyLedger.length = storeEx.currencyLedger.length + 1 ∧
    (((awardMiniGameReward true storeEx awardPlayerEx "g" "ref" 5 3).2 ++
      (awardMiniGameReward true
        (awardMiniGameReward true storeEx awardPlayerEx "g" "ref" 5 3).1
        awardPlayerEx "g" "ref" 5 3).2).filter isCurrencyGrant).length = 1 := by
  have h := rewardGrant_idempotent.2.2 storeEx awardPlayerEx "u1"
    ⟨"u1", "kyle", 10, 1, 0⟩ "g" "ref" 5 3 (by decide) (by decide) (by decide)
    (by decide) (by decide) (by decide) (by decide) (by decide)
  exact ⟨h.1, h.2.1, h.2.2.2⟩


theorem userQuests_appendCurrencyLedger (s : Store) (u : String) (delta : ℤ)
    (source sourceRef : String) :
    (appendCurrencyLedger s u delta source sourceRef).2.userQuests =
      s.userQuests := by
  unfold appendCurrencyLedger
  cases getProfileByUserId s u <;> rfl

theorem userQuests_addXp (s : Store) (u : String) (xpDelta : ℤ) :
    (addXp s u xpDelta).userQuests = s.userQuests := by
  unfold addXp
  cases getProfileByUserId s u <;> rfl

theorem userQuests_grantUnlock (s : Store) (u unlockId : String) :
    (grantUnlock s u unlockId).2.userQuests = s.userQuests := by
  unfold grantUnlock
  split_ifs <;> rfl

theorem userQuests_rememberGrantKey (s : Store) (u k : String) :
    (rememberGrantKey s u k).2.userQuests = s.userQuests := by
  unfold rememberGrantKey
  split_ifs <;> rfl

theorem userQuests_trackRewardApply (u tierRef : String)
    (acc : Store × List Event) (reward : TrackReward) :
    (trackRewardApply u tierRef acc reward).1.userQuests =
      acc.1.userQuests := by
  cases reward with
  | stars amount =>
      simp only [trackRewardApply]
      have h := userQuests_appendCurrencyLedger acc.1 u amount "unlock_track"
        tierRef
      cases hv : (appendCurrencyLedger acc.1 u amount "unlock_track" tierRef).1
        <;> simp [hv, h]
  | unlock unlockId =>
      simp only [trackRewardApply]
      have h := userQuests_grantUnlock acc.1 u unlockId
      split_ifs <;> simp [h]

theorem userQuests_trackRewardFold (u tierRef : String)
    (rewards : List TrackReward) (acc : Store × List Event) :
    (rewards.foldl (trackRewardApply u tierRef) acc).1.userQuests =
      acc.1.userQuests := by
  induction rewards generalizing acc with
  | nil => rfl
  | cons r rest ih =>
      simp only [List.foldl]
      rw [ih, userQuests_trackRewardApply]

theorem userQuests_trackTierApply (u : String) (xpTotal : ℤ)
    (acc : Store × List Event) (tier : TrackTier) :
    (trackTierApply u xpTotal acc tier).1.userQuests = acc.1.userQuests := by
  unfold trackTierApply
  split_ifs with h1
  · rfl
  · unfold rememberGrantKey
    split_ifs with h2
    · rfl
    · show (List.foldl (trackRewardApply u (toString tier.tier))
        ({ acc.1 with grantHistory := acc.1.grantHistory ++
          [(u, "unlock-track:" ++ toString tier.tier)] }, acc.2)
        tier.rewards).1.userQuests = acc.1.userQuests
      rw [userQuests_trackRewardFold]

theorem userQuests_applyUnlockTrackRewards (s : Store) (u : String) :
    (applyUnlockTrackRewards s u).1.userQuests = s.userQuests := by
  unfold applyUnlockTrackRewards
  cases hp : getProfileByUserId s u with
  | none => rfl
  | some profile =>
      have hgen : ∀ (tiers : List TrackTier) (acc : Store × List Event),
          (tiers.foldl (trackTierApply u profile.xpTotal) acc).1.userQuests =
            acc.1.userQuests := by
        intro tiers
        induction tiers with
        | nil => intro acc; rfl
        | cons t rest ih =>
            intro acc
            simp only [List.foldl]
            rw [ih, userQuests_trackTierApply]
      exact hgen UNLOCK_TRACK (s, [])

/-- The reward tail shared by `applyQuestRewardIfNeeded` and
    `awardMiniGameReward`: optional currency append, optional XP, then
    unlock-track rewards. Its store keeps the incoming grant history as
    a prefix and the quest rows untouched. -/
theorem reward_tail_store (econ : Bool) (sK : Store) (u : String)
    (stars xp : ℤ) (src ref : String) :
    sK.grantHistory <+:
      (applyUnlockTrackRewards
        (if decide (0 < xp) then
          addXp (if econ && decide (0 < stars) then
            appendCurrencyLedger sK u stars src ref else (none, sK)).2 u xp
         else (if econ && decide (0 < stars) then
            appendCurrencyLedger sK u stars src ref else (none, sK)).2)
        u).1.grantHistory ∧
    (applyUnlockTrackRewards
        (if decide (0 < xp) then
          addXp (if econ && decide (0 < stars) then
            appendCurrencyLedger sK u stars src ref else (none, sK)).2 u xp
         else (if econ && decide (0 < stars) then
            appendCurrencyLedger sK u stars src ref else (none, sK)).2)
        u).1.userQuests = sK.userQuests := by
  have hga : (if econ && decide (0 < stars) then
      appendCurrencyLedger sK u stars src ref else
        (none, sK)).2.grantHistory = sK.grantHistory := by
    split_ifs with hc
    · exact grantHistory_appendCurrencyLedger sK u stars src ref
    · rfl
  have hqa : (if econ && decide (0 < stars) then
      appendCurrencyLedger sK u stars src ref else
        (none, sK)).2.userQuests = sK.userQuests := by
    split_ifs with hc
    · exact userQuests_appendCurrencyLedger sK u stars src ref
    · rfl
  have hgx : (if decide (0 < xp) then
      addXp (if econ && decide (0 < stars) then
        appendCurrencyLedger sK u stars src ref else (none, sK)).2 u xp
     else (if econ && decide (0 < stars) then
        appendCurrencyLedger sK u stars src ref else
          (none, sK)).2).grantHistory = sK.grantHistory := by
    by_cases hc : decide (0 < xp) = true
    · rw [if_pos hc, grantHistory_addXp, hga]
    · rw [if_neg hc]
      exact hga
  have hqx : (if decide (0 < xp) then
      addXp (if econ && decide (0 < stars) then
        appendCurrencyLedger sK u stars src ref else (none, sK)).2 u xp
     else (if econ && decide (0 < stars) then
        appendCurrencyLedger sK u stars src ref else
          (none, sK)).2).userQuests = sK.userQuests := by
    by_cases hc : decide (0 < xp) = true
    · rw [if_pos hc, userQuests_addXp, hqa]
    · rw [if_neg hc]
      exact hqa
  constructor
  · rw [← hgx]
    exact grantHistory_prefix_applyUnlockTrackRewards _ u
  · rw [userQuests_applyUnlockTrackRewards, hqx]

/-- `rememberGrantKey` always leaves the key present in its result. -/
theorem hasGrantKey_remember_self (s : Store) (u k : String) :
    hasGrantKey (rememberGrantKey s u k).2 u k = true := by
  unfold rememberGrantKey
  split_ifs with h
  · exact h
  · simp [hasGrantKey]

theorem find?_replaceFirstQuest (row : QuestRow) (u qid : String)
    (hu : row.userId = u) (hq : row.questId = qid) (l : List QuestRow) :
    (replaceFirstQuest row u qid l).find?
        (fun r => r.userId = u ∧ r.questId = qid) =
      (l.find? (fun r => r.userId = u ∧ r.questId = qid)).map
        (fun _ => row) := by
  induction l with
  | nil => rfl
  | cons r rest ih =>
      by_cases hr : r.userId = u ∧ r.questId = qid
      · simp [replaceFirstQuest, hr, List.find?_cons, hu, hq]
      · simp only [replaceFirstQuest, if_neg hr]
        simp [List.find?_cons, hr]
        simpa using ih

theorem userQuests_applyQuestRewardIfNeeded (econ : Bool) (s : Store)
    (u : String) (q : ActiveQuest) :
    (applyQuestRewardIfNeeded econ s u q).1.userQuests = s.userQuests := by
  unfold applyQuestRewardIfNeeded
  by_cases h : hasGrantKey s u ("quest:" ++ q.id ++ ":" ++ q.cycle ++
      ":completed") = true
  · have hrem : rememberGrantKey s u ("quest:" ++ q.id ++ ":" ++ q.cycle ++
        ":completed") = (false, s) := by
      simp [rememberGrantKey, h]
    rw [hrem]
    simp
  · have h' : hasGrantKey s u ("quest:" ++ q.id ++ ":" ++ q.cycle ++
        ":completed") = false := by
      simpa using h
    have hrem : rememberGrantKey s u ("quest:" ++ q.id ++ ":" ++ q.cycle ++
        ":completed") =
        (true, { s with grantHistory := s.grantHistory ++
          [(u, "quest:" ++ q.id ++ ":" ++ q.cycle ++ ":completed")] }) := by
      simp [rememberGrantKey, h']
    rw [hrem]
    simp only [Bool.true_eq_false, if_false]
    exact (reward_tail_store econ _ u q.rewardStars q.rewardXp "quest" q.id).2

theorem grantKey_applyQuestRewardIfNeeded (econ : Bool) (s : Store)
    (u : String) (q : ActiveQuest) :
    hasGrantKey (applyQuestRewardIfNeeded econ s u q).1 u
      ("quest:" ++ q.id ++ ":" ++ q.cycle ++ ":completed") = true := by
  unfold applyQuestRewardIfNeeded
  by_cases h : hasGrantKey s u ("quest:" ++ q.id ++ ":" ++ q.cycle ++
      ":completed") = true
  · have hrem : rememberGrantKey s u ("quest:" ++ q.id ++ ":" ++ q.cycle ++
        ":completed") = (false, s) := by
      simp [rememberGrantKey, h]
    rw [hrem]
    simpa using h
  · have h' : hasGrantKey s u ("quest:" ++ q.id ++ ":" ++ q.cycle ++
        ":completed") = false := by
      simpa using h
    have hrem : rememberGrantKey s u ("quest:" ++ q.id ++ ":" ++ q.cycle ++
        ":completed") =
        (true, { s with grantHistory := s.grantHistory ++
          [(u, "quest:" ++ q.id ++ ":" ++ q.cycle ++ ":completed")] }) := by
      simp [rememberGrantKey, h']
    rw [hrem]
    simp only [Bool.true_eq_false, if_false]
    refine hasGrantKey_mono u _
      (reward_tail_store econ _ u q.rewardStars q.rewardXp "quest" q.id).1 ?_
    simp [hasGrantKey]

theorem clampInt_reach (v t : ℤ) (ht : 0 < t) :
    t ≤ clampInt v 0 t ↔ t ≤ v := by
  unfold clampInt
  constructor
  · intro h
    rcases le_max_iff.mp h with h1 | h1
    · omega
    · exact (le_min_iff.mp h1).2
  · intro h
    exact le_max_iff.mpr (Or.inr (le_min_iff.mpr ⟨le_refl t, h⟩))

/-- **C8.** For every quest-progress application to an active matching
    quest whose row is present and neither completed nor claimed (and
    whose target is positive): the stored value becomes
    `clamp(previous value + delta, 0, target)`, the stored status is
    `"completed"` exactly when `previous value + delta` reaches the
    target; and the quest reward path is idempotent per
    (account, quest, cycle): re-running `applyQuestRewardIfNeeded`
    after any first run returns the first run's store unchanged with no
    further events, via the `quest:<id>:<cycle>:completed` grant
    key. -/
theorem applyQuestDeltaCore_spec :
    (∀ (econ : Bool) (s : Store) (u : String) (q : ActiveQuest) (delta : ℤ)
        (row : QuestRow),
      findQuestState s u q.id = some row →
      row.status ≠ "completed" → row.status ≠ "claimed" → 0 < q.target →
      ∃ row' : QuestRow,
        findQuestState (applyQuestDeltaCore econ s u q delta).1 u q.id =
          some row' ∧
        row'.value = clampInt (row.value + delta) 0 q.target ∧
        (row'.status = "completed" ↔ q.target ≤ row.value + delta)) ∧
    (∀ (econ : Bool) (s : Store) (u : String) (q : ActiveQuest),
      applyQuestRewardIfNeeded econ
          (applyQuestRewardIfNeeded econ s u q).1 u q =
        ((applyQuestRewardIfNeeded econ s u q).1, [])) := by
  constructor
  · intro econ s u q delta row hrow hs1 hs2 htpos
    have hpred := List.find?_some hrow
    have hu : row.userId = u := by
      simpa using (of_decide_eq_true hpred).1
    have hq : row.questId = q.id := by
      simpa using (of_decide_eq_true hpred).2
    have hstat : ¬ (row.status = "completed" ∨ row.status = "claimed") := by
      simp [hs1, hs2]
    have hiff := clampInt_reach (row.value + delta) q.target htpos
    have hup : findQuestState
        (upsertQuestState s
          { row with
            value := clampInt (row.value + delta) 0 q.target
            status := if decide (q.target ≤
                clampInt (row.value + delta) 0 q.target) = true
              then "completed" else "active" }) u q.id =
        some { row with
          value := clampInt (row.value + delta) 0 q.target
          status := if decide (q.target ≤
              clampInt (row.value + delta) 0 q.target) = true
            then "completed" else "active" } := by
      unfold upsertQuestState
      have hrow' : findQuestState s row.userId row.questId = some row := by
        rw [hu, hq]
        exact hrow
      rw [show findQuestState s
        ({ row with
          value := clampInt (row.value + delta) 0 q.target
          status := if decide (q.target ≤
              clampInt (row.value + delta) 0 q.target) = true
            then "completed" else "active" } : QuestRow).userId
        ({ row with
          value := clampInt (row.value + delta) 0 q.target
          status := if decide (q.target ≤
              clampInt (row.value + delta) 0 q.target) = true
            then "completed" else "active" } : QuestRow).questId =
        some row from hrow']
      unfold findQuestState
      show (replaceFirstQuest _ row.userId row.questId s.userQuests).find? _ = _
      rw [hu, hq]
      rw [find?_replaceFirstQuest _ u q.id (by rw [← hu]) (by rw [← hq])
        s.userQuests]
      unfold findQuestState at hrow
      rw [hrow]
      rfl
    refine ⟨{ row with
      value := clampInt (row.value + delta) 0 q.target
      status := if decide (q.target ≤
          clampInt (row.value + delta) 0 q.target) = true
        then "completed" else "active" }, ?_, rfl, ?_⟩
    · simp only [applyQuestDeltaCore, hrow, if_neg hstat]
      by_cases hc : q.target ≤ clampInt (row.value + delta) 0 q.target
      · rw [if_pos (by simpa using hc)]
        show findQuestState (applyQuestRewardIfNeeded econ _ u _).1 u q.id = _
        unfold findQuestState
        rw [userQuests_applyQuestRewardIfNeeded]
        unfold findQuestState at hup
        exact hup
      · rw [if_neg (by simpa using hc)]
        exact hup
    · by_cases hc : q.target ≤ clampInt (row.value + delta) 0 q.target
      · simp only [if_pos (show decide (q.target ≤
          clampInt (row.value + delta) 0 q.target) = true by simpa using hc)]
        simp [hiff.mp hc]
      · simp only [if_neg (show ¬ decide (q.target ≤
          clampInt (row.value + delta) 0 q.target) = true by simpa using hc)]
        constructor
        · intro hcontra
          exact absurd hcontra (by decide)
        · intro hv
          exact absurd (hiff.mpr hv) hc
  · intro econ s u q
    have hkey := grantKey_applyQuestRewardIfNeeded econ s u q
    conv_lhs => rw [applyQuestRewardIfNeeded]
    have hrem : rememberGrantKey (applyQuestRewardIfNeeded econ s u q).1 u
        ("quest:" ++ q.id ++ ":" ++ q.cycle ++ ":completed") =
        (false, (applyQuestRewardIfNeeded econ s u q).1) := by
      simp [rememberGrantKey, hkey]
    rw [hrem]
    simp

/-- Concrete store for the C8 witness: one active quest row at value 1
    of target 3. -/
def questStoreEx : Store :=
  { profiles := [⟨"u1", "kyle", 0, 1, 0⟩]
    userQuests := [⟨"u1", "q1", "active", 1, 3, "static"⟩]
    userUnlocks := []
    currencyLedger := []
    grantHistory := [] }

/-- Concrete active quest for the C8 witness. -/
def questEx : ActiveQuest := ⟨"q1", 3, "static", 5, 5⟩

/-- Closed instantiation of `applyQuestDeltaCore_spec`: a delta of 2 on
    value 1 with target 3 clamps to 3 and flips the row to
    completed. -/
theorem applyQuestDeltaCore_spec_witness :
    ∃ row' : QuestRow,
      findQuestState (applyQuestDeltaCore true questStoreEx "u1" questEx 2).1
          "u1" questEx.id = some row' ∧
      row'.value =
        clampInt ((⟨"u1", "q1", "active", 1, 3, "static"⟩ : QuestRow).value + 2)
          0 questEx.target ∧
      (row'.status = "completed" ↔
        questEx.target ≤
          (⟨"u1", "q1", "active", 1, 3, "static"⟩ : QuestRow).value + 2) :=
  applyQuestDeltaCore_spec.1 true questStoreEx "u1" questEx 2
    ⟨"u1", "q1", "active", 1, 3, "static"⟩ (by decide) (by decide) (by decide)
    (by decide)

/-! ## Join handling (`io.on("connection")`, `socket.on("join")`) -/

/-- A character admitted by the room-id sanitizer's character class
    `[a-z0-9-_]` (applied after lower-casing). -/
def roomIdChar (c : Char) : Bool :=
  decide (('a' ≤ c ∧ c ≤ 'z') ∨ ('0' ≤ c ∧ c ≤ '9') ∨ c = '-' ∨ c = '_')

/-- ASCII lower-casing of one character, as JS `toLowerCase` acts on
    the ASCII range (room ids are ASCII; astral-plane case mapping is
    irrelevant here). -/
def lowerChar (c : Char) : Char :=
  if 'A' ≤ c ∧ c ≤ 'Z' then Char.ofNat (c.toNat + 32) else c

/-- Whitespace for JS `trim` (the common ASCII whitespace; room ids
    never carry the exotic Unicode spaces JS also trims). -/
def wsChar (c : Char) : Bool :=
  decide (c = ' ' ∨ c = '\t' ∨ c = '\n' ∨ c = '\r')

/-- JS `String.prototype.trim` on a character list. -/
def jsTrim (cs : List Char) : List Char :=
  ((cs.dropWhile wsChar).reverse.dropWhile wsChar).reverse

/-- `normalizeRoomId(value)`: non-strings read as empty (`none` models
    a non-string payload field), then trim + lower-case, strip
    characters outside `[a-z0-9-_]`, cap at 40 characters, and fall
    back to `DEFAULT_ROOM_ID` when empty at either stage. -/
def normalizeRoomId (value : Option String) : String :=
  let raw := match value with
    | some s => ((jsTrim s.toList).map lowerChar).asString
    | none => ""
  if raw = "" then DEFAULT_ROOM_ID
  else
    let cleaned := ((raw.toList.filter roomIdChar).take 40).asString
    if cleaned = "" then DEFAULT_ROOM_ID else cleaned

/-- Global server state read by the join handler: the players map (in
    insertion order) and the set of room ids holding mini-game
    runtimes (`roomMiniGames` keys; the runtimes' contents are not
    read by the join-rejection path). -/
structure ServerState where
  players : List Player
  roomMiniGames : List String
  deriving DecidableEq, Repr

/-- The `join` handler. `authUser` stands for the verified account id
    resolved from `payload.authToken` (token verification is an
    external collaborator); `guestBlocked` models
    `FEATURES.auth_v1 && !FEATURES.guestFallback`; `spawn` stands for
    the two `Math.random()` spawn draws already combined. The accepted
    branch abbreviates the `welcome` payload and the follow-up
    zone-presence/quest effects to the message kinds; the rejected
    branches are translated exactly. The server-side 2-argument
    `getZoneIdAtPosition` lives in the server `content.js` copy (not
    among the provided sources); per the spec it is the same
    declaration-order scan, embedded here over the studio zone set. -/
def joinHandler (st : ServerState) (socketId : String)
    (payloadRoomId : Option String) (authUser : Option String)
    (guestBlocked : Bool) (spawn : ℚ × ℚ) : ServerState × List Event :=
  let roomId := normalizeRoomId payloadRoomId
  if MAX_ROOM_PLAYERS ≤ countPlayersInRoom st.players roomId then
    (st, [Event.joinErrorFull roomId MAX_ROOM_PLAYERS])
  else if authUser = none ∧ guestBlocked then
    (st, [Event.joinErrorAuth])
  else
    let existing := st.players.find? (fun p => p.id = socketId)
    let pos : ℚ × ℚ := match existing with
      | some p => (p.x, p.y)
      | none => spawn
    let player : Player := {
      id := socketId
      userId := authUser
      roomId := roomId
      x := pos.1
      y := pos.2
      zoneId := getZoneIdAtPosition DEFAULT_ZONE_DEFS pos.1 pos.2 (some WORLD) }
    let players' := match existing with
      | some _ => st.players.map (fun p => if p.id = socketId then player else p)
      | none => st.players ++ [player]
    ({ players := players'
       roomMiniGames :=
         if roomId ∈ st.roomMiniGames then st.roomMiniGames
         else st.roomMiniGames ++ [roomId] },
     [Event.welcome socketId roomId, Event.playerJoined socketId])

/-- **C9.** A join request targeting a room that already holds
    `MAX_ROOM_PLAYERS` (12) players is rejected with a `join_error`
    carrying code `room_full`, the normalized room id and the maximum
    player count, and the server state — player registry, room player
    lists and mini-game runtimes — is returned unchanged. -/
theorem join_room_full_spec (st : ServerState) (socketId : String)
    (payloadRoomId : Option String) (authUser : Option String)
    (guestBlocked : Bool) (spawn : ℚ × ℚ)
    (h : MAX_ROOM_PLAYERS ≤
      countPlayersInRoom st.players (normalizeRoomId payloadRoomId)) :
    joinHandler st socketId payloadRoomId authUser guestBlocked spawn =
      (st, [Event.joinErrorFull (normalizeRoomId payloadRoomId)
        MAX_ROOM_PLAYERS]) := by
  simp only [joinHandler, if_pos h]

/-- A full `studio-1` room: 12 distinct players. -/
def fullStateEx : ServerState :=
  { players := (List.range 12).map (fun n =>
      { id := "p" ++ toString n, userId := none, roomId := "studio-1",
        x := 1400, y := 900, zoneId := none })
    roomMiniGames := ["studio-1"] }

/-- Closed instantiation of `join_room_full_spec`: a 13th join into the
    full room (requested as "Studio-1", normalized to "studio-1") is
    rejected and changes nothing. -/
theorem join_room_full_spec_witness :
    joinHandler fullStateEx "p12" (some "Studio-1") none false (0, 0) =
      (fullStateEx, [Event.joinErrorFull (normalizeRoomId (some "Studio-1"))
        MAX_ROOM_PLAYERS]) :=
  join_room_full_spec fullStateEx "p12" (some "Studio-1") none false (0, 0)
    (by decide)

/-! ## Glow-trail action handler and action dispatch -/

/-- Runtime state of the cooperative waypoint walk
    (`createMiniGameRuntime`, branch `glow_trail_walk`). -/
structure GlowState where
  phase : String
  prompt : String
  combo : ℤ
  progress : ℚ
  participants : List String
  waypointIndex : ℕ
  requiresHappywalk : Bool
  cycle : ℤ
  completionCount : ℤ
  touchedThisCycle : List String
  deriving DecidableEq, Repr

/-- `handleGlowTrailAction(roomId, gameDef, gameState, player, action)`:
    consumes only a `happywalk` while the gate flag is raised. -/
def handleGlowTrailAction (gameDef : GameDef) (st : GlowState)
    (player : Player) (action : String) : Bool × GlowState × List Event :=
  if player.zoneId ≠ some gameDef.zoneId then (false, st, [])
  else if action ≠ "happywalk" ∨ st.requiresHappywalk = false then
    (false, st, [])
  else
    let st1 : GlowState := { st with
      requiresHappywalk := false
      phase := "active"
      combo := st.combo + 1
      participants := addUnique st.participants player.id }
    (true, st1,
      [.actionResult gameDef.id player.id action true 1 st1.combo,
       .questDeltaCall player.userId "minigame_participation" 1
         (some gameDef.id) none])

/-- One room's mini-game runtime, tagged per engine
    (`createMiniGameRuntime` returns one of these shapes per
    definition id; the fallback shape is `generic`). -/
inductive GameState where
  | echo (st : EchoState)
  | relay (st : RelayState)
  | glow (st : GlowState)
  | generic
  deriving DecidableEq, Repr

/-- In-place replacement of one game's runtime in the room's
    `miniGames` map (modelled as an insertion-ordered association
    list). -/
def updateGame (games : List (String × GameState)) (gid : String)
    (gs : GameState) : List (String × GameState) :=
  games.map (fun kv => if kv.1 = gid then (kv.1, gs) else kv)

/-- `handleMiniGameAction(player, action, now)`: walk `MINI_GAME_DEFS`
    in order, dispatch per definition id to the matching engine's
    action handler, stop at the first handler that consumes the
    action (in-place runtime mutation is modelled by updating the
    association list; a non-consuming handler leaves its state
    unchanged and the walk continues). -/
def handleMiniGameAction (roomPlayers : List Player) (player : Player)
    (action : String) (now : ℤ) :
    List GameDef → List (String × GameState) →
      List (String × GameState) × List Event
  | [], games => (games, [])
  | gameDef :: defs, games =>
      match games.lookup gameDef.id with
      | none => handleMiniGameAction roomPlayers player action now defs games
      | some gs =>
          if gameDef.id = "emote_echo_circle" then
            match gs with
            | .echo est =>
                let r := handleEmoteEchoAction gameDef roomPlayers est player
                  action now
                let games1 := updateGame games gameDef.id (.echo r.2.1)
                if r.1 then (games1, r.2.2)
                else
                  let rest := handleMiniGameAction roomPlayers player action
                    now defs games1
                  (rest.1, r.2.2 ++ rest.2)
            | _ => handleMiniGameAction roomPlayers player action now defs games
          else if gameDef.id = "prop_relay_bench" then
            match gs with
            | .relay rst =>
                let r := handlePropRelayAction gameDef roomPlayers rst player
                  action now
                let games1 := updateGame games gameDef.id (.relay r.2.1)
                if r.1 then (games1, r.2.2)
                else
                  let rest := handleMiniGameAction roomPlayers player action
                    now defs games1
                  (rest.1, r.2.2 ++ rest.2)
            | _ => handleMiniGameAction roomPlayers player action now defs games
          else if gameDef.id = "glow_trail_walk" then
            match gs with
            | .glow gst =>
                let r := handleGlowTrailAction gameDef gst player action
                let games1 := updateGame games gameDef.id (.glow r.2.1)
                if r.1 then (games1, r.2.2)
                else
                  let rest := handleMiniGameAction roomPlayers player action
                    now defs games1
                  (rest.1, r.2.2 ++ rest.2)
            | _ => handleMiniGameAction roomPlayers player action now defs games
          else handleMiniGameAction roomPlayers player action now defs games

/-- The `socket.on("emote")` handler: drop the message when the sender
    is unregistered or the action type is not in `ALLOWED_EMOTES`;
    otherwise broadcast the `emote {id, type, ts}` to the sender's
    whole room first, then dispatch to the mini-games, then (for
    linked accounts) record the `emote_near_player` quest delta with
    the 210-unit proximity check. -/
def emoteHandler (defs : List GameDef) (players : List Player)
    (games : List (String × GameState)) (socketId ty : String) (now : ℤ) :
    List (String × GameState) × List Event :=
  match players.find? (fun p => p.id = socketId) with
  | none => (games, [])
  | some player =>
      if ty ∈ ALLOWED_EMOTES then
        let roomPlayers := listPlayersByRoom players player.roomId
        let r := handleMiniGameAction roomPlayers player ty now defs games
        let questEvs : List Event :=
          match player.userId with
          | none => []
          | some uid =>
              let peers := roomPlayers.filter (fun e => e.id ≠ player.id)
              let nearby := peers.any (fun e =>
                distLe (e.x - player.x) (e.y - player.y) 210)
              [Event.questDeltaEmote (some uid) ty nearby]
        (r.1, Event.emote player.id ty now :: (r.2 ++ questEvs))
      else (games, [])

/-- **C10.** For every received emote/action message: if the sender is
    a registered player and the type is in the allowed-emote set, an
    `emote {id, type, ts}` event is broadcast to the sender's whole
    room unconditionally and *first* — before any mini-game dispatch,
    regardless of the sender's zone and of whether a mini-game consumes
    the action (the resulting mini-game states are exactly those of the
    dispatch that follows the broadcast); if the type is not allowed,
    or the sender is unregistered, the message is a complete no-op: no
    broadcast, no dispatch, no quest progress, and no state change. -/
theorem emoteHandler_spec (defs : List GameDef) (players : List Player)
    (games : List (String × GameState)) (socketId ty : String) (now : ℤ) :
    (ty ∉ ALLOWED_EMOTES →
      emoteHandler defs players games socketId ty now = (games, [])) ∧
    (players.find? (fun p => p.id = socketId) = none →
      emoteHandler defs players games socketId ty now = (games, [])) ∧
    (∀ player : Player,
      players.find? (fun p => p.id = socketId) = some player →
      ty ∈ ALLOWED_EMOTES →
      ∃ rest : List Event,
        (emoteHandler defs players games socketId ty now).2 =
          Event.emote player.id ty now :: rest ∧
        (emoteHandler defs players games socketId ty now).1 =
          (handleMiniGameAction (listPlayersByRoom players player.roomId)
            player ty now defs games).1) := by
  refine ⟨?_, ?_, ?_⟩
  · intro hna
    unfold emoteHandler
    cases hf : players.find? (fun p => p.id = socketId) with
    | none => rfl
    | some player => simp [hna]
  · intro hf
    unfold emoteHandler
    rw [hf]
  · intro player hf ha
    unfold emoteHandler
    rw [hf]
    simp only [if_pos ha]
    exact ⟨_, rfl, trivial⟩

/-- Concrete sender for the C10 witness, outside every zone. -/
def emotePlayerEx : Player :=
  { id := "pe", userId := none, roomId := "studio-1", x := 1400, y := 900,
    zoneId := none }

/-- Closed instantiation of `emoteHandler_spec`: an allowed "wave" from
    a registered player is broadcast first, and a disallowed type is a
    no-op. -/
theorem emoteHandler_spec_witness :
    (∃ rest : List Event,
      (emoteHandler [] [emotePlayerEx] [] "pe" "wave" 1000).2 =
        Event.emote emotePlayerEx.id "wave" 1000 :: rest ∧
      (emoteHandler [] [emotePlayerEx] [] "pe" "wave" 1000).1 =
        (handleMiniGameAction
          (listPlayersByRoom [emotePlayerEx] emotePlayerEx.roomId)
          emotePlayerEx "wave" 1000 [] []).1) ∧
    emoteHandler [] [emotePlayerEx] [] "pe" "dance" 1000 = ([], []) := by
  have h := emoteHandler_spec [] [emotePlayerEx] [] "pe" "wave" 1000
  have h2 := emoteHandler_spec [] [emotePlayerEx] [] "pe" "dance" 1000
  exact ⟨h.2.2 emotePlayerEx (by decide) (by decide), h2.1 (by decide)⟩

end MiniGameHub
